import Mathlib

set_option maxRecDepth 4000

/-!
Verification of the Wasm serverless platform core (src/index.js, src/worker.js).

The embedding models the classes of the first variant in src/index.js —
`Cache`, `WasmThreadExecutor`, `Platform`, `HttpServer` — and the first
variant of src/worker.js.  Asynchronous functions are split at their
`await` points into atomic segments; the JavaScript event loop is
over-approximated by a labelled transition system whose labels pick which
pending continuation, worker event or timer fires next.
-/

namespace WasmServerless

/-! ## Module byte cache (src/index.js, class Cache, lines 12-35) -/

/-- A cache entry `{ value, timestamp }` as built by `Cache.get`:
`value` is the supplied byte content (identified by an integer),
`timestamp` is the `Date.now()` of the last access. -/
structure CacheEntry where
  value : Int
  timestamp : Int
deriving Repr, DecidableEq

/-- State of one `Cache` instance plus observation bookkeeping:
`ttl` and the entry map are the fields of the class; `sup` is the
byte content the supplier (`_loadWasmBuffer`) yields for a key;
`pending` records `get` calls suspended at `await supplyFn(key)`
(call id ↦ key); `supplierCalls` counts supplier invocations and
`returned` records the value each completed `get` call returned. -/
structure CacheState where
  ttl : Int
  sup : Nat → Int
  map : Nat → Option CacheEntry
  pending : Nat → Option Nat
  supplierCalls : Nat
  returned : Nat → Option Int

/-- Events of the cache: a `get(key, supplyFn)` call runs synchronously up
to its only suspension point (`await supplyFn(key)`, taken only on a miss),
so a call is either `getStart` (hit: completes at once; miss: suspends and
invokes the supplier) followed, on a miss, by `getFinish` (store and
return), and `_evict` is one sweep of the recurring interval timer. -/
inductive CacheOp
| getStart (gid k : Nat) (now : Int)
| getFinish (gid : Nat) (now : Int)
| evict (now : Int)
deriving Repr, DecidableEq

/-- One atomic segment of the cache code.
`getStart`: `let entry = this.map.get(key)`; on a hit,
`entry.timestamp = Date.now(); return entry.value`; on a miss the call
invokes `supplyFn(key)` and suspends.
`getFinish`: `entry = { value }; this.map.set(key, entry);
entry.timestamp = Date.now(); return entry.value`.
`evict`: remove every entry with `timestamp < Date.now() - this.ttl`. -/
def Cache.step : CacheOp → CacheState → CacheState
| .getStart gid k now, s =>
  match s.map k with
  | some e =>
    { s with map := fun k2 => if k2 = k then some { e with timestamp := now } else s.map k2,
             returned := fun g => if g = gid then some e.value else s.returned g }
  | none =>
    { s with pending := fun g => if g = gid then some k else s.pending g,
             supplierCalls := s.supplierCalls + 1 }
| .getFinish gid now, s =>
  match s.pending gid with
  | some k =>
    { s with pending := fun g => if g = gid then none else s.pending g,
             map := fun k2 => if k2 = k then some { value := s.sup k, timestamp := now } else s.map k2,
             returned := fun g => if g = gid then some (s.sup k) else s.returned g }
  | none => s
| .evict now, s =>
  { s with map := fun k =>
      match s.map k with
      | some e => if e.timestamp < now - s.ttl then none else some e
      | none => none }

/-- Run a sequence of cache events. -/
def Cache.run (s : CacheState) : List CacheOp → CacheState
| [] => s
| op :: ops => Cache.run (Cache.step op s) ops

/-- A fresh cache (`new Cache(ttl)`) with supplier content `sup`. -/
def Cache.init (ttl : Int) (sup : Nat → Int) : CacheState :=
  { ttl := ttl, sup := sup, map := fun _ => none, pending := fun _ => none,
    supplierCalls := 0, returned := fun _ => none }

/-- The key a cache event reads or writes directly (a suspended
`getFinish` reaches its key only through `pending`). -/
def CacheOp.touchesKey (k : Nat) : CacheOp → Bool
| .getStart _ k2 _ => k2 == k
| .getFinish _ _ => false
| .evict _ => false

/-- The `Date.now()` at which a cache event runs. -/
def CacheOp.time : CacheOp → Int
| .getStart _ _ t => t
| .getFinish _ t => t
| .evict t => t

/-! ## Sandbox worker (src/worker.js, first variant)

`execModule` instantiates the module and calls `wasm[START_FUNCTION]`;
a trap thrown by the call is caught (`catch (err) { ... return err; }`)
and the error object is *returned as the result*.  `exec` then posts
that result back with `parentPort.postMessage(result)`. -/

/-- Behaviour of one sandboxed entry-function call: it either returns a
numeric value or traps. -/
inductive WasmRun
| returns (v : Int)
| traps (err : String)
deriving Repr, DecidableEq

/-- The value a worker message carries: either a normal return value or a
caught error object delivered as the result. -/
inductive RVal
| normal (v : Int)
| errValue (err : String)
deriving Repr, DecidableEq

/-- `execModule` of src/worker.js: `return wasm[START_FUNCTION](...params)`
inside `try`, with `catch (err) { return err; }`. -/
def execModule : WasmRun → RVal
| .returns v => RVal.normal v
| .traps err => RVal.errValue err

/-- `exec` of src/worker.js posts `execModule`'s result as the message. -/
def workerPostedMessage (run : WasmRun) : RVal := execModule run

/-! ## Worker-pool executor (src/index.js, class WasmThreadExecutor, lines 79-201)

State machine for `execute` / `_work` / `_findFreeWorker` /
`_createWorker`.  Each `_work` invocation runs synchronously up to
`await this._findFreeWorker()` and parks; the resolved continuation is a
separate step (`resume`), as is worker creation completing (`online`),
the `await this.cache.get(...)` resolving or rejecting
(`cacheDone`/`cacheFail`), worker events (`message`/`werror`/`wexit`) and
the watchdog timer (`timer`). -/

/-- A queued task `{wasmFile, params, resolve, reject}`: identified by
`tid`; `loadable` says whether `cache.get` on its `wasmFile` succeeds
(`false` models a missing module file). -/
structure QTask where
  tid : Nat
  loadable : Bool
deriving Repr, DecidableEq

/-- The reason a task's promise is rejected. -/
inductive Reason
| workerErrorEv
| exitCode (c : Nat)
| timeoutMsg
deriving Repr, DecidableEq

/-- Settlement of a task's promise. -/
inductive Outcome
| resolved (r : RVal)
| rejected (e : Reason)
deriving Repr, DecidableEq

/-- Promise and statistics bookkeeping for one task: `outcome` is the
(first and only) settlement of the promise; `statsCount` counts the
invocations of the caller-supplied `onFinish` stats callback, which the
`resolve`/`reject` wrappers in `execute` call unconditionally. -/
structure TaskRecord where
  outcome : Option Outcome
  statsCount : Nat
deriving Repr, DecidableEq

/-- `resolve(result, stats)` wrapper of `execute`: `_resolve(result)`
settles the promise only if it is still pending (JS promises ignore a
second settlement); `onFinish(stats)` runs unconditionally. -/
def TaskRecord.settleResolve (r : TaskRecord) (v : RVal) : TaskRecord :=
  { outcome := match r.outcome with
      | some o => some o
      | none => some (Outcome.resolved v),
    statsCount := r.statsCount + 1 }

/-- `reject(error, stats)` wrapper of `execute`, same shape. -/
def TaskRecord.settleReject (r : TaskRecord) (e : Reason) : TaskRecord :=
  { outcome := match r.outcome with
      | some o => some o
      | none => some (Outcome.rejected e),
    statsCount := r.statsCount + 1 }

/-- A thread object built by `_createWorker`: `{worker, index, busy,
onMessage, onError, onExit}`.  `handler` is the `_work` invocation whose
handlers are currently installed (`none` = the initial no-op handlers). -/
structure ThreadObj where
  index : Nat
  busy : Bool
  handler : Option Nat
deriving Repr, DecidableEq

/-- Progress of one dispatch past the `tasks.pop()`:
`loading` = suspended at `await this.cache.get(...)`;
`launched` = `postMessage` sent and the watchdog timer armed;
`dead` = the `_work` body aborted (cache rejection, or `task` was
`undefined` because `pop` ran on an empty queue). -/
inductive CtxPhase
| loading
| launched
| dead
deriving Repr, DecidableEq

/-- The closure state of one `_work` invocation after `tasks.pop()`:
the popped `task` (`none` models `undefined` from popping an empty
queue), the thread object it uses (`threadWorkerId`), that object's
`index`, and the `running`/`timeout` flags and armed timer. -/
structure DispatchCtx where
  task : Option QTask
  threadWorkerId : Nat
  slotIndex : Nat
  running : Bool
  timeoutFlag : Bool
  timerArmed : Bool
  phase : CtxPhase
deriving Repr, DecidableEq

/-- A `_work` invocation parked at `await this._findFreeWorker()`:
either the `_findFreeWorker` promise is already resolved (with a thread
object or with `null`) or it waits for a worker creation to come online. -/
inductive ParkedWork
| awaitingWorker (res : Option Nat)
| awaitingCreation (cid : Nat)
deriving Repr, DecidableEq

/-- A pending `_createWorker(index, onUpAndRunning)` whose `online`
event has not fired yet; `wid` is the parked `_work` it will resume. -/
structure Creation where
  slot : Nat
  wid : Nat
deriving Repr, DecidableEq

/-- State of one `WasmThreadExecutor` together with the parked
continuations and per-task bookkeeping.  `threads` is the pool array
(slot index ↦ worker id or empty), `objs` the live thread objects,
`tasks` the queue, `terminated` the workers killed by the watchdog,
`crashed` records a `TypeError` thrown inside an event handler. -/
structure ExecState where
  poolSize : Nat
  threads : Nat → Option Nat
  objs : Nat → Option ThreadObj
  tasks : List QTask
  parked : Nat → Option ParkedWork
  dispatches : Nat → Option DispatchCtx
  creations : Nat → Option Creation
  records : Nat → Option TaskRecord
  terminated : List Nat
  crashed : Bool
  nextTask : Nat
  nextWork : Nat
  nextCreation : Nat
  nextWorker : Nat

/-- Pointwise update of a functional store. -/
def upd {α : Type} (f : Nat → Option α) (k : Nat) (v : Option α) : Nat → Option α :=
  fun x => if x = k then v else f x

/-- The scan loop of `_findFreeWorker` from slot `i` with `rem` slots
left: the first slot holding no thread (`if (!w)`) triggers
`_createWorker`; otherwise the first non-busy thread is the result;
with no hit the promise resolves `null`. -/
def findFreeScanFrom (s : ExecState) : Nat → Nat → Option (Sum Nat Nat)
| _, 0 => none
| i, rem + 1 =>
  match s.threads i with
  | none => some (Sum.inr i)
  | some wk =>
    match s.objs wk with
    | some o => if o.busy then findFreeScanFrom s (i + 1) rem else some (Sum.inl wk)
    | none => findFreeScanFrom s (i + 1) rem

/-- `_findFreeWorker`'s scan over the whole pool. -/
def findFreeWorkerScan (s : ExecState) : Option (Sum Nat Nat) :=
  findFreeScanFrom s 0 s.poolSize

/-- The synchronous prefix of `_work`: return if the queue is empty,
otherwise start `_findFreeWorker` and suspend at the `await` — either
parked on a fresh worker creation or parked with the already-resolved
thread (or `null`). -/
def workSync (s : ExecState) : ExecState :=
  if s.tasks.isEmpty then s
  else
    match findFreeWorkerScan s with
    | some (Sum.inr i) =>
      { s with nextWork := s.nextWork + 1,
               nextCreation := s.nextCreation + 1,
               creations := upd s.creations s.nextCreation (some { slot := i, wid := s.nextWork }),
               parked := upd s.parked s.nextWork (some (ParkedWork.awaitingCreation s.nextCreation)) }
    | some (Sum.inl wk) =>
      { s with nextWork := s.nextWork + 1,
               parked := upd s.parked s.nextWork (some (ParkedWork.awaitingWorker (some wk))) }
    | none =>
      { s with nextWork := s.nextWork + 1,
               parked := upd s.parked s.nextWork (some (ParkedWork.awaitingWorker none)) }

/-- Settle a task's promise by `resolve` (records bookkeeping only). -/
def settleTaskResolve (s : ExecState) (tid : Nat) (v : RVal) : ExecState :=
  match s.records tid with
  | some r => { s with records := upd s.records tid (some (r.settleResolve v)) }
  | none => s

/-- Settle a task's promise by `reject`. -/
def settleTaskReject (s : ExecState) (tid : Nat) (e : Reason) : ExecState :=
  match s.records tid with
  | some r => { s with records := upd s.records tid (some (r.settleReject e)) }
  | none => s

/-- `execute(wasmFile, params, onFinish)`: create the promise, push
`{wasmFile, params, resolve, reject}` onto `this.tasks`, then trigger
`this._work()` synchronously. -/
def stepExecute (s : ExecState) (loadable : Bool) : ExecState :=
  workSync
    { s with nextTask := s.nextTask + 1,
             records := upd s.records s.nextTask (some { outcome := none, statsCount := 0 }),
             tasks := s.tasks ++ [{ tid := s.nextTask, loadable := loadable }] }

/-- The `online` event of a pending `_createWorker`: build the thread
object (`busy: false`, no-op handlers), store it in `this.threads[index]`
and resolve the waiting `_findFreeWorker` promise with it. -/
def stepOnline (s : ExecState) (cid : Nat) : ExecState :=
  match s.creations cid with
  | none => s
  | some c =>
    { s with nextWorker := s.nextWorker + 1,
             creations := upd s.creations cid none,
             objs := upd s.objs s.nextWorker
               (some { index := c.slot, busy := false, handler := none }),
             threads := upd s.threads c.slot (some s.nextWorker),
             parked := upd s.parked c.wid
               (some (ParkedWork.awaitingWorker (some s.nextWorker))) }

/-- The continuation of `_work` after `await this._findFreeWorker()`:
`if (!thread) return`, otherwise `tasks.pop()`, `thread.busy = true`,
install `onMessage`/`onError`/`onExit`, and suspend at
`await this.cache.get(task.wasmFile, ...)`.  Popping an empty queue
yields `undefined`; `busy` and the handlers are still set (lines
116-131) and the invocation then dies at `task.wasmFile`. -/
def stepResume (s : ExecState) (wid : Nat) : ExecState :=
  match s.parked wid with
  | some (ParkedWork.awaitingWorker res) =>
    let s0 := { s with parked := upd s.parked wid none }
    match res with
    | none => s0
    | some wk =>
      match s0.objs wk with
      | none => s0
      | some o =>
        match s0.tasks.getLast? with
        | some t =>
          { s0 with tasks := s0.tasks.dropLast,
                    objs := upd s0.objs wk (some { o with busy := true, handler := some wid }),
                    dispatches := upd s0.dispatches wid (some
                      { task := some t, threadWorkerId := wk, slotIndex := o.index,
                        running := true, timeoutFlag := false, timerArmed := false,
                        phase := CtxPhase.loading }) }
        | none =>
          { s0 with objs := upd s0.objs wk (some { o with busy := true, handler := some wid }),
                    dispatches := upd s0.dispatches wid (some
                      { task := none, threadWorkerId := wk, slotIndex := o.index,
                        running := true, timeoutFlag := false, timerArmed := false,
                        phase := CtxPhase.dead }) }
  | _ => s

/-- The tail of `_work` when `await this.cache.get(...)` resolves:
`thread.worker.postMessage({wasmBuffer, params})` and arm the watchdog
`setTimeout`. -/
def stepCacheDone (s : ExecState) (wid : Nat) : ExecState :=
  match s.dispatches wid with
  | some ctx =>
    if ctx.phase = CtxPhase.loading then
      match ctx.task with
      | some t =>
        if t.loadable then
          { s with dispatches := upd s.dispatches wid
                     (some { ctx with phase := CtxPhase.launched, timerArmed := true }) }
        else s
      | none => s
    else s
  | none => s

/-- The rejection of `await this.cache.get(...)` (the supplier threw,
e.g. `readFileSync` on a missing file): the async `_work` body aborts —
nothing after line 140 runs, so no `postMessage`, no timer, and
`thread.busy` stays `true`. -/
def stepCacheFail (s : ExecState) (wid : Nat) : ExecState :=
  match s.dispatches wid with
  | some ctx =>
    if ctx.phase = CtxPhase.loading then
      match ctx.task with
      | some t =>
        if t.loadable then s
        else { s with dispatches := upd s.dispatches wid
                        (some { ctx with phase := CtxPhase.dead }) }
      | none => s
    else s
  | none => s

/-- A `message` event from worker `wk` carrying `r`:
`thread.onMessage = result => onFinish(() => task.resolve(result, createStats()))`
where `onFinish` clears `busy` and `running`, runs the callback and
re-triggers `this._work()`.  When `task` is `undefined` the callback
throws a `TypeError` and `_work` is not re-triggered. -/
def stepMessage (s : ExecState) (wk : Nat) (r : RVal) : ExecState :=
  if wk ∈ s.terminated then s
  else
    match s.objs wk with
    | none => s
    | some o =>
      match o.handler with
      | none => s
      | some wid =>
        match s.dispatches wid with
        | none => s
        | some ctx =>
          let s1 := { s with objs := upd s.objs wk (some { o with busy := false }),
                             dispatches := upd s.dispatches wid
                               (some { ctx with running := false }) }
          match ctx.task with
          | some t => workSync (settleTaskResolve s1 t.tid r)
          | none => { s1 with crashed := true }

/-- An `error` event from worker `wk`:
`thread.onError = error => onFinish(() => task.reject(error, createStats()))`. -/
def stepError (s : ExecState) (wk : Nat) : ExecState :=
  if wk ∈ s.terminated then s
  else
    match s.objs wk with
    | none => s
    | some o =>
      match o.handler with
      | none => s
      | some wid =>
        match s.dispatches wid with
        | none => s
        | some ctx =>
          let s1 := { s with objs := upd s.objs wk (some { o with busy := false }),
                             dispatches := upd s.dispatches wid
                               (some { ctx with running := false }) }
          match ctx.task with
          | some t => workSync (settleTaskReject s1 t.tid Reason.workerErrorEv)
          | none => { s1 with crashed := true }

/-- An `exit` event from worker `wk` with `code`: on a non-zero code the
task is rejected — with the timeout message if the watchdog fired, else
with the exit code — and then `onFinish()` clears `busy`/`running` and
re-triggers `_work` (the settlement here does NOT go through `onFinish`). -/
def stepExit (s : ExecState) (wk : Nat) (code : Nat) : ExecState :=
  match s.objs wk with
  | none => s
  | some o =>
    match o.handler with
    | none => s
    | some wid =>
      match s.dispatches wid with
      | none => s
      | some ctx =>
        if code ≠ 0 then
          match ctx.task with
          | some t =>
            let s1 := if ctx.timeoutFlag then settleTaskReject s t.tid Reason.timeoutMsg
                      else settleTaskReject s t.tid (Reason.exitCode code)
            workSync
              { s1 with objs := upd s1.objs wk (some { o with busy := false }),
                        dispatches := upd s1.dispatches wid
                          (some { ctx with running := false }) }
          | none => { s with crashed := true }
        else
          workSync
            { s with objs := upd s.objs wk (some { o with busy := false }),
                     dispatches := upd s.dispatches wid
                       (some { ctx with running := false }) }

/-- The watchdog `setTimeout` of dispatch `wid` firing: `if (running)`
set the `timeout` flag, `thread.worker.terminate()` and
`this.threads[thread.index] = null`; with `running` already false the
timer fires without observable effect.  A timer fires at most once. -/
def stepTimer (s : ExecState) (wid : Nat) : ExecState :=
  match s.dispatches wid with
  | none => s
  | some ctx =>
    if ctx.timerArmed then
      if ctx.running then
        { s with dispatches := upd s.dispatches wid
                   (some { ctx with timerArmed := false, timeoutFlag := true }),
                 terminated := ctx.threadWorkerId :: s.terminated,
                 threads := upd s.threads ctx.slotIndex none }
      else
        { s with dispatches := upd s.dispatches wid
                   (some { ctx with timerArmed := false }) }
    else s

/-- Scheduling labels: which pending continuation or event fires next. -/
inductive ExecLabel
| execute (loadable : Bool)
| online (cid : Nat)
| resume (wid : Nat)
| cacheDone (wid : Nat)
| cacheFail (wid : Nat)
| message (wk : Nat) (r : RVal)
| werror (wk : Nat)
| wexit (wk : Nat) (code : Nat)
| timer (wid : Nat)
deriving Repr, DecidableEq

/-- One step of the executor event system. -/
def execStep : ExecLabel → ExecState → ExecState
| .execute loadable, s => stepExecute s loadable
| .online cid, s => stepOnline s cid
| .resume wid, s => stepResume s wid
| .cacheDone wid, s => stepCacheDone s wid
| .cacheFail wid, s => stepCacheFail s wid
| .message wk r, s => stepMessage s wk r
| .werror wk, s => stepError s wk
| .wexit wk code, s => stepExit s wk code
| .timer wid, s => stepTimer s wid

/-- Run a sequence of labels. -/
def execRun (s : ExecState) : List ExecLabel → ExecState
| [] => s
| l :: ls => execRun (execStep l s) ls

/-- A fresh executor: `new WasmThreadExecutor(poolSize)` — an empty pool
array of `poolSize` slots and an empty task queue. -/
def initExec (poolSize : Nat) : ExecState :=
  { poolSize := poolSize, threads := fun _ => none, objs := fun _ => none,
    tasks := [], parked := fun _ => none, dispatches := fun _ => none,
    creations := fun _ => none, records := fun _ => none,
    terminated := [], crashed := false,
    nextTask := 0, nextWork := 0, nextCreation := 0, nextWorker := 0 }

/-- `_countOfBusyWorkers`: `this.threads.filter(t => t && t.busy).length`. -/
def countOfBusyWorkers (s : ExecState) : Nat :=
  (List.range s.poolSize).countP (fun i =>
    match s.threads i with
    | some wk =>
      match s.objs wk with
      | some o => o.busy
      | none => false
    | none => false)

/-- The no-double-assignment property claimed for the scheduler: two
distinct `_work` dispatches that are both still running never occupy the
same pool slot. -/
def noSlotDoubleAssign (s : ExecState) : Prop :=
  ∀ w1 w2 c1 c2, w1 ≠ w2 →
    s.dispatches w1 = some c1 → s.dispatches w2 = some c2 →
    c1.running = true → c2.running = true →
    c1.slotIndex ≠ c2.slotIndex

/-- The exactly-once property claimed for the stats callback: the
caller-supplied `onFinish` hook has fired exactly once for the task. -/
def statsFiredOnce (s : ExecState) (tid : Nat) : Prop :=
  ∀ r, s.records tid = some r → r.statsCount = 1

/-- The property claimed for a trapped execution: the task's promise
was rejected (with some reason). -/
def taskRejected (s : ExecState) (tid : Nat) : Prop :=
  ∃ e n, s.records tid = some { outcome := some (Outcome.rejected e), statsCount := n }

/-- No task is dispatched twice: distinct dispatches carry distinct
task ids. -/
def distinctDispatchTasks (s : ExecState) : Prop :=
  ∀ w1 w2 c1 c2 t1 t2, w1 ≠ w2 →
    s.dispatches w1 = some c1 → s.dispatches w2 = some c2 →
    c1.task = some t1 → c2.task = some t2 → t1.tid ≠ t2.tid

/-- Task-identity bookkeeping invariant of the executor: queued task ids
are distinct and fresh (below `nextTask`), dispatched task ids are fresh,
absent from the queue and pairwise distinct. -/
def tidsOK (s : ExecState) : Prop :=
  ((s.tasks.map QTask.tid).Nodup ∧ ∀ q ∈ s.tasks, q.tid < s.nextTask)
  ∧ (∀ wid ctx t, s.dispatches wid = some ctx → ctx.task = some t →
      t.tid < s.nextTask ∧ ∀ q ∈ s.tasks, q.tid ≠ t.tid)
  ∧ distinctDispatchTasks s

/-! ## Platform and HTTP layer (src/index.js, classes Platform and HttpServer) -/

/-- A JavaScript value as it reaches `res.end` via template-string
interpolation. -/
inductive JsVal
| undef
| num (v : Int)
| str (s : String)
deriving Repr, DecidableEq

/-- Template-string conversion as in `res.end` with a dollar-brace
interpolation of `result`: `undefined` prints as the string
`undefined`. -/
def jsValToString : JsVal → String
| .undef => "undefined"
| .num v => toString v
| .str s => s

/-- Settlement of the promise an async controller hands to
`await controllerFn(...)`. -/
inductive PromiseResult (α : Type)
| resolvedWith (v : α)
| rejectedWith (err : String)
deriving Repr, DecidableEq

/-- The tail of `Platform.exec`:
`.catch(err => console.error(...))` — the catch handler returns
`console.error`'s return value, i.e. `undefined`, so a rejected
execution promise becomes a promise resolved with `undefined`. -/
def execCatch : PromiseResult JsVal → PromiseResult JsVal
| .resolvedWith v => PromiseResult.resolvedWith v
| .rejectedWith _ => PromiseResult.resolvedWith JsVal.undef

/-- Per-module statistics `{time, counter}` kept in the registry. -/
structure ModuleStats where
  time : Int
  counter : Nat
deriving Repr, DecidableEq

/-- A registry entry `{name, wasmFile, stats}`. -/
structure ModuleEntry where
  name : String
  wasmFile : String
  stats : ModuleStats
deriving Repr, DecidableEq

/-- The registry `Map` of `Platform` (module name ↦ entry). -/
def Registry : Type := String → Option ModuleEntry

/-- `Platform.register(moduleName, attributes)`: unconditionally
`this.registry.set(moduleName, {name, wasmFile, stats: {time: 0,
counter: 0}})` and return the success message. -/
def Platform.register (registry : Registry) (moduleName : String) :
    Registry × String :=
  (fun m => if m = moduleName then
      some { name := moduleName,
             wasmFile := "./" ++ moduleName ++ ".wasm",
             stats := { time := 0, counter := 0 } }
    else registry m,
   "module \x27" ++ moduleName ++ "\x27 registered successfully")

/-- `Platform.stats(moduleName)`: throw if unknown, else print the
accumulated time and counter. -/
def Platform.stats (registry : Registry) (moduleName : String) :
    Except String String :=
  match registry moduleName with
  | none => Except.error ("cannot find module \x27" ++ moduleName ++ "\x27")
  | some m =>
    Except.ok ("execution time: " ++ toString m.stats.time ++ "ms\nnumber of requests: "
      ++ toString m.stats.counter)

/-- `Platform.exec(moduleName, params)`: throw synchronously if the
module is not registered; otherwise return the executor's promise with
the `.catch` wrapper attached.  The executor promise's settlement is a
parameter of the shallow embedding. -/
def Platform.exec (registry : Registry) (moduleName : String)
    (executionOutcome : PromiseResult JsVal) : Except String (PromiseResult JsVal) :=
  match registry moduleName with
  | none => Except.error ("cannot find module \x27" ++ moduleName ++ "\x27")
  | some _ => Except.ok (execCatch executionOutcome)

/-- `HttpServer._processRequest` around `await controllerFn(...)`: a
synchronous throw or a rejected promise lands in the `catch` (status
500); a resolved promise yields status 200 with the interpolated value
as body. -/
def processControllerResult : Except String (PromiseResult JsVal) → Nat × String
| .error e => (500, e)
| .ok (PromiseResult.resolvedWith v) => (200, jsValToString v)
| .ok (PromiseResult.rejectedWith e) => (500, e)

/-! ## Helper lemmas -/

theorem upd_self {α : Type} (f : Nat → Option α) (k : Nat) (v : Option α) :
    upd f k v k = v := by
  simp [upd]

theorem upd_ne {α : Type} (f : Nat → Option α) (k : Nat) (v : Option α)
    (x : Nat) (h : x ≠ k) : upd f k v x = f x := by
  simp [upd, h]

theorem workSync_tasks (s : ExecState) : (workSync s).tasks = s.tasks := by
  unfold workSync
  split
  · rfl
  · split <;> rfl

theorem workSync_nextTask (s : ExecState) : (workSync s).nextTask = s.nextTask := by
  unfold workSync
  split
  · rfl
  · split <;> rfl

theorem workSync_dispatches (s : ExecState) : (workSync s).dispatches = s.dispatches := by
  unfold workSync
  split
  · rfl
  · split <;> rfl

theorem workSync_records (s : ExecState) : (workSync s).records = s.records := by
  unfold workSync
  split
  · rfl
  · split <;> rfl

theorem workSync_objs (s : ExecState) : (workSync s).objs = s.objs := by
  unfold workSync
  split
  · rfl
  · split <;> rfl

theorem workSync_threads (s : ExecState) : (workSync s).threads = s.threads := by
  unfold workSync
  split
  · rfl
  · split <;> rfl

theorem workSync_terminated (s : ExecState) : (workSync s).terminated = s.terminated := by
  unfold workSync
  split
  · rfl
  · split <;> rfl

theorem workSync_poolSize (s : ExecState) : (workSync s).poolSize = s.poolSize := by
  unfold workSync
  split
  · rfl
  · split <;> rfl

theorem settleTaskResolve_proj (s : ExecState) (tid : Nat) (v : RVal) :
    (settleTaskResolve s tid v).tasks = s.tasks
    ∧ (settleTaskResolve s tid v).nextTask = s.nextTask
    ∧ (settleTaskResolve s tid v).dispatches = s.dispatches
    ∧ (settleTaskResolve s tid v).objs = s.objs
    ∧ (settleTaskResolve s tid v).threads = s.threads
    ∧ (settleTaskResolve s tid v).poolSize = s.poolSize := by
  unfold settleTaskResolve
  split <;> exact ⟨rfl, rfl, rfl, rfl, rfl, rfl⟩

theorem settleTaskReject_proj (s : ExecState) (tid : Nat) (e : Reason) :
    (settleTaskReject s tid e).tasks = s.tasks
    ∧ (settleTaskReject s tid e).nextTask = s.nextTask
    ∧ (settleTaskReject s tid e).dispatches = s.dispatches
    ∧ (settleTaskReject s tid e).objs = s.objs
    ∧ (settleTaskReject s tid e).threads = s.threads
    ∧ (settleTaskReject s tid e).poolSize = s.poolSize := by
  unfold settleTaskReject
  split <;> exact ⟨rfl, rfl, rfl, rfl, rfl, rfl⟩

/-- The busy-worker count is a `countP` over the pool slots, hence at
most the number of slots. -/
theorem countOfBusyWorkers_le_poolSize (s : ExecState) :
    countOfBusyWorkers s ≤ s.poolSize := by
  have h := List.countP_le_length (l := List.range s.poolSize)
    (p := fun i =>
      match s.threads i with
      | some wk =>
        match s.objs wk with
        | some o => o.busy
        | none => false
      | none => false)
  simpa [countOfBusyWorkers] using h

/-! ## Claim theorems -/

/-- C3: the scheduler dispatches in LIFO order — `execute` appends the
new task at the end of `this.tasks`, and a dispatch attempt that has
obtained a free thread pops exactly the last (most recently pushed)
element of the queue and dispatches it. -/
theorem c3_lifo_dispatch :
    (∀ (s : ExecState) (b : Bool),
      (stepExecute s b).tasks = s.tasks ++ [{ tid := s.nextTask, loadable := b }])
    ∧ (∀ (s : ExecState) (wid wk : Nat) (o : ThreadObj) (t : QTask),
      s.parked wid = some (ParkedWork.awaitingWorker (some wk)) →
      s.objs wk = some o →
      s.tasks.getLast? = some t →
      (stepResume s wid).dispatches wid = some
        { task := some t, threadWorkerId := wk, slotIndex := o.index,
          running := true, timeoutFlag := false, timerArmed := false,
          phase := CtxPhase.loading }
      ∧ (stepResume s wid).tasks = s.tasks.dropLast) := by
  constructor
  · intro s b
    simp [stepExecute, workSync_tasks]
  · intro s wid wk o t hpark hobj hlast
    simp [stepResume, hpark, hobj, hlast, upd_self]

/-- C3 witness: with two tasks queued and a free worker, the dispatch
takes the second (most recently submitted) task. -/
theorem c3_lifo_dispatch_witness :
    (stepResume (execRun (initExec 2)
      [ExecLabel.execute true, ExecLabel.execute true, ExecLabel.online 0]) 0).dispatches 0 =
      some { task := some { tid := 1, loadable := true }, threadWorkerId := 0, slotIndex := 0,
             running := true, timeoutFlag := false, timerArmed := false,
             phase := CtxPhase.loading }
    ∧ (stepResume (execRun (initExec 2)
      [ExecLabel.execute true, ExecLabel.execute true, ExecLabel.online 0]) 0).tasks =
      [{ tid := 0, loadable := true }] :=
  c3_lifo_dispatch.2 (execRun (initExec 2)
      [ExecLabel.execute true, ExecLabel.execute true, ExecLabel.online 0]) 0 0
    { index := 0, busy := false, handler := none }
    { tid := 1, loadable := true } rfl rfl rfl

/-- C1 counterexample: a worker `error` event followed by the worker's
non-zero `exit` event calls `task.reject` twice — the promise stays
rejected with the first reason, but the stats callback fires twice. -/
theorem c1_counterexample :
    (execRun (initExec 2)
      [ExecLabel.execute true, ExecLabel.online 0, ExecLabel.resume 0,
       ExecLabel.cacheDone 0, ExecLabel.werror 0, ExecLabel.wexit 0 1]).records 0 =
      some { outcome := some (Outcome.rejected Reason.workerErrorEv), statsCount := 2 }
    ∧ ¬ statsFiredOnce (execRun (initExec 2)
      [ExecLabel.execute true, ExecLabel.online 0, ExecLabel.resume 0,
       ExecLabel.cacheDone 0, ExecLabel.werror 0, ExecLabel.wexit 0 1]) 0 := by
  refine ⟨rfl, fun h => ?_⟩
  have h2 := h { outcome := some (Outcome.rejected Reason.workerErrorEv), statsCount := 2 } rfl
  simp at h2

/-- C1 (amended): the promise is settled at most once — a second
`resolve`/`reject` leaves the first settlement in place — and the stats
callback fires exactly once on the success, crash-only and timeout
paths, but twice when a worker `error` event is followed by a non-zero
`exit` event. -/
theorem c1_amended_settlement :
    ((execRun (initExec 2)
      [ExecLabel.execute true, ExecLabel.online 0, ExecLabel.resume 0,
       ExecLabel.cacheDone 0, ExecLabel.message 0 (RVal.normal 7)]).records 0 =
      some { outcome := some (Outcome.resolved (RVal.normal 7)), statsCount := 1 })
    ∧ ((execRun (initExec 2)
      [ExecLabel.execute true, ExecLabel.online 0, ExecLabel.resume 0,
       ExecLabel.cacheDone 0, ExecLabel.wexit 0 1]).records 0 =
      some { outcome := some (Outcome.rejected (Reason.exitCode 1)), statsCount := 1 })
    ∧ ((execRun (initExec 2)
      [ExecLabel.execute true, ExecLabel.online 0, ExecLabel.resume 0,
       ExecLabel.cacheDone 0, ExecLabel.timer 0, ExecLabel.wexit 0 1]).records 0 =
      some { outcome := some (Outcome.rejected Reason.timeoutMsg), statsCount := 1 })
    ∧ ((execRun (initExec 2)
      [ExecLabel.execute true, ExecLabel.online 0, ExecLabel.resume 0,
       ExecLabel.cacheDone 0, ExecLabel.werror 0, ExecLabel.wexit 0 1]).records 0 =
      some { outcome := some (Outcome.rejected Reason.workerErrorEv), statsCount := 2 })
    ∧ (∀ (r : TaskRecord) (o : Outcome) (v : RVal) (e : Reason), r.outcome = some o →
        (r.settleResolve v).outcome = some o ∧ (r.settleReject e).outcome = some o) := by
  refine ⟨rfl, rfl, rfl, rfl, fun r o v e h => ?_⟩
  simp [TaskRecord.settleResolve, TaskRecord.settleReject, h]

/-- C1 witness: the settle-at-most-once conjunct at a concrete
already-settled record. -/
theorem c1_amended_settlement_witness :
    (({ outcome := some (Outcome.resolved (RVal.normal 3)), statsCount := 1 } :
        TaskRecord).settleResolve (RVal.normal 9)).outcome =
      some (Outcome.resolved (RVal.normal 3))
    ∧ (({ outcome := some (Outcome.resolved (RVal.normal 3)), statsCount := 1 } :
        TaskRecord).settleReject Reason.timeoutMsg).outcome =
      some (Outcome.resolved (RVal.normal 3)) :=
  c1_amended_settlement.2.2.2.2
    { outcome := some (Outcome.resolved (RVal.normal 3)), statsCount := 1 }
    (Outcome.resolved (RVal.normal 3)) (RVal.normal 9) Reason.timeoutMsg rfl

/-- C2 counterexample: two `execute` calls whose `_work` invocations
both suspend at `await this._findFreeWorker()` while slot 0 is still
empty each create a worker for slot 0 and dispatch a different task to
it — the same slot is assigned to two concurrently running tasks. -/
theorem c2_counterexample :
    (execRun (initExec 2)
      [ExecLabel.execute true, ExecLabel.execute true, ExecLabel.online 0,
       ExecLabel.resume 0, ExecLabel.online 1, ExecLabel.resume 1]).dispatches 0 =
      some { task := some { tid := 1, loadable := true }, threadWorkerId := 0, slotIndex := 0,
             running := true, timeoutFlag := false, timerArmed := false,
             phase := CtxPhase.loading }
    ∧ (execRun (initExec 2)
      [ExecLabel.execute true, ExecLabel.execute true, ExecLabel.online 0,
       ExecLabel.resume 0, ExecLabel.online 1, ExecLabel.resume 1]).dispatches 1 =
      some { task := some { tid := 0, loadable := true }, threadWorkerId := 1, slotIndex := 0,
             running := true, timeoutFlag := false, timerArmed := false,
             phase := CtxPhase.loading }
    ∧ ¬ noSlotDoubleAssign (execRun (initExec 2)
      [ExecLabel.execute true, ExecLabel.execute true, ExecLabel.online 0,
       ExecLabel.resume 0, ExecLabel.online 1, ExecLabel.resume 1]) := by
  refine ⟨rfl, rfl, fun h => ?_⟩
  exact h 0 1
    { task := some { tid := 1, loadable := true }, threadWorkerId := 0, slotIndex := 0,
      running := true, timeoutFlag := false, timerArmed := false, phase := CtxPhase.loading }
    { task := some { tid := 0, loadable := true }, threadWorkerId := 1, slotIndex := 0,
      running := true, timeoutFlag := false, timerArmed := false, phase := CtxPhase.loading }
    (by decide) rfl rfl rfl rfl rfl

/-- C4 counterexample: an execution that traps is caught inside the
worker and posted back as the result message, so the executor resolves
the task's promise with the error as its value — the promise is not
rejected. -/
theorem c4_counterexample :
    (execRun (initExec 2)
      [ExecLabel.execute true, ExecLabel.online 0, ExecLabel.resume 0,
       ExecLabel.cacheDone 0,
       ExecLabel.message 0 (workerPostedMessage (WasmRun.traps "unreachable"))]).records 0 =
      some { outcome := some (Outcome.resolved (RVal.errValue "unreachable")), statsCount := 1 }
    ∧ ¬ taskRejected (execRun (initExec 2)
      [ExecLabel.execute true, ExecLabel.online 0, ExecLabel.resume 0,
       ExecLabel.cacheDone 0,
       ExecLabel.message 0 (workerPostedMessage (WasmRun.traps "unreachable"))]) 0 := by
  refine ⟨rfl, fun h => ?_⟩
  obtain ⟨e, n, hn⟩ := h
  have h0 : (execRun (initExec 2)
      [ExecLabel.execute true, ExecLabel.online 0, ExecLabel.resume 0,
       ExecLabel.cacheDone 0,
       ExecLabel.message 0 (workerPostedMessage (WasmRun.traps "unreachable"))]).records 0 =
      some { outcome := some (Outcome.resolved (RVal.errValue "unreachable")), statsCount := 1 } := rfl
  rw [h0] at hn
  simp at hn

/-- C4 (amended): a trap is caught by `execModule` and returned as the
message payload; delivering that message resolves the task's promise
with the error value, frees the slot (`busy := false`) and leaves the
pool array untouched. -/
theorem c4_amended_trap_resolves (s : ExecState) (wk wid : Nat) (o : ThreadObj)
    (ctx : DispatchCtx) (t : QTask) (rec : TaskRecord) (err : String)
    (hterm : wk ∉ s.terminated) (hobj : s.objs wk = some o)
    (hhand : o.handler = some wid) (hdisp : s.dispatches wid = some ctx)
    (htask : ctx.task = some t) (hrec : s.records t.tid = some rec)
    (hout : rec.outcome = none) :
    (stepMessage s wk (workerPostedMessage (WasmRun.traps err))).records t.tid =
      some { outcome := some (Outcome.resolved (RVal.errValue err)),
             statsCount := rec.statsCount + 1 }
    ∧ (stepMessage s wk (workerPostedMessage (WasmRun.traps err))).objs wk =
      some { o with busy := false }
    ∧ (stepMessage s wk (workerPostedMessage (WasmRun.traps err))).threads = s.threads := by
  simp only [stepMessage, if_neg hterm, hobj, hhand, hdisp, htask, workerPostedMessage, execModule]
  simp [workSync_records, workSync_objs, workSync_threads, settleTaskResolve, upd_self, hrec,
    TaskRecord.settleResolve, hout, upd]

/-- C4 witness: the amended trap theorem at the concrete trapping
trace. -/
theorem c4_amended_trap_resolves_witness :
    (stepMessage (execRun (initExec 2)
      [ExecLabel.execute true, ExecLabel.online 0, ExecLabel.resume 0, ExecLabel.cacheDone 0])
      0 (workerPostedMessage (WasmRun.traps "unreachable"))).records 0 =
      some { outcome := some (Outcome.resolved (RVal.errValue "unreachable")), statsCount := 1 }
    ∧ (stepMessage (execRun (initExec 2)
      [ExecLabel.execute true, ExecLabel.online 0, ExecLabel.resume 0, ExecLabel.cacheDone 0])
      0 (workerPostedMessage (WasmRun.traps "unreachable"))).objs 0 =
      some { index := 0, busy := false, handler := some 0 }
    ∧ (stepMessage (execRun (initExec 2)
      [ExecLabel.execute true, ExecLabel.online 0, ExecLabel.resume 0, ExecLabel.cacheDone 0])
      0 (workerPostedMessage (WasmRun.traps "unreachable"))).threads =
      (execRun (initExec 2)
      [ExecLabel.execute true, ExecLabel.online 0, ExecLabel.resume 0, ExecLabel.cacheDone 0]).threads :=
  c4_amended_trap_resolves (execRun (initExec 2)
      [ExecLabel.execute true, ExecLabel.online 0, ExecLabel.resume 0, ExecLabel.cacheDone 0])
    0 0 { index := 0, busy := true, handler := some 0 }
    { task := some { tid := 0, loadable := true }, threadWorkerId := 0, slotIndex := 0,
      running := true, timeoutFlag := false, timerArmed := true, phase := CtxPhase.launched }
    { tid := 0, loadable := true } { outcome := none, statsCount := 0 } "unreachable"
    (by decide) rfl rfl rfl rfl rfl rfl

/-- C5: the timeout watchdog.  First conjunct: if the dispatch is still
running when the armed timer fires, the watchdog terminates the hosting
worker, clears the pool slot (`this.threads[thread.index] = null`), and
the ensuing non-zero `exit` event rejects the still-pending task exactly
once with the timeout fault; the slot stays cleared.  Second conjunct:
if the execution already completed (`running` is false), the timer fires
with no observable effect on threads, objects, records, queue or
termination state. -/
theorem c5_watchdog :
    (∀ (s : ExecState) (wid : Nat) (ctx : DispatchCtx) (o : ThreadObj)
      (t : QTask) (rec : TaskRecord),
      s.dispatches wid = some ctx → ctx.running = true → ctx.timerArmed = true →
      ctx.task = some t →
      s.objs ctx.threadWorkerId = some o → o.handler = some wid →
      s.records t.tid = some rec → rec.outcome = none →
      (stepTimer s wid).threads ctx.slotIndex = none
      ∧ ctx.threadWorkerId ∈ (stepTimer s wid).terminated
      ∧ (stepExit (stepTimer s wid) ctx.threadWorkerId 1).records t.tid =
          some { outcome := some (Outcome.rejected Reason.timeoutMsg),
                 statsCount := rec.statsCount + 1 }
      ∧ (stepExit (stepTimer s wid) ctx.threadWorkerId 1).threads ctx.slotIndex = none)
    ∧ (∀ (s : ExecState) (wid : Nat) (ctx : DispatchCtx),
      s.dispatches wid = some ctx → ctx.running = false →
      (stepTimer s wid).threads = s.threads
      ∧ (stepTimer s wid).objs = s.objs
      ∧ (stepTimer s wid).records = s.records
      ∧ (stepTimer s wid).tasks = s.tasks
      ∧ (stepTimer s wid).terminated = s.terminated) := by
  constructor
  · intro s wid ctx o t rec hdisp hrun harm htask hobj hhand hrec hout
    have ht : stepTimer s wid =
        { s with dispatches := upd s.dispatches wid
                   (some { ctx with timerArmed := false, timeoutFlag := true }),
                 terminated := ctx.threadWorkerId :: s.terminated,
                 threads := upd s.threads ctx.slotIndex none } := by
      simp [stepTimer, hdisp, hrun, harm]
    refine ⟨?_, ?_, ?_, ?_⟩
    · rw [ht]; exact upd_self _ _ _
    · rw [ht]; exact List.mem_cons_self _ _
    · rw [ht]
      simp only [stepExit, hobj, hhand, upd_self, htask]
      simp [settleTaskReject, hrec, TaskRecord.settleReject, hout,
        workSync_records, upd_self]
    · rw [ht]
      simp only [stepExit, hobj, hhand, upd_self, htask]
      simp [settleTaskReject, hrec, workSync_threads, upd_self]
  · intro s wid ctx hdisp hrun
    simp [stepTimer, hdisp, hrun]
    split <;> simp

/-- C5 witness: the timeout scenario and the completed-before-timer
scenario at concrete states. -/
theorem c5_watchdog_witness :
    ((stepTimer (execRun (initExec 2)
      [ExecLabel.execute true, ExecLabel.online 0, ExecLabel.resume 0, ExecLabel.cacheDone 0])
      0).threads 0 = none
     ∧ 0 ∈ (stepTimer (execRun (initExec 2)
      [ExecLabel.execute true, ExecLabel.online 0, ExecLabel.resume 0, ExecLabel.cacheDone 0])
      0).terminated
     ∧ (stepExit (stepTimer (execRun (initExec 2)
      [ExecLabel.execute true, ExecLabel.online 0, ExecLabel.resume 0, ExecLabel.cacheDone 0])
      0) 0 1).records 0 =
       some { outcome := some (Outcome.rejected Reason.timeoutMsg), statsCount := 1 }
     ∧ (stepExit (stepTimer (execRun (initExec 2)
      [ExecLabel.execute true, ExecLabel.online 0, ExecLabel.resume 0, ExecLabel.cacheDone 0])
      0) 0 1).threads 0 = none)
    ∧ ((stepTimer (execRun (initExec 2)
      [ExecLabel.execute true, ExecLabel.online 0, ExecLabel.resume 0, ExecLabel.cacheDone 0,
       ExecLabel.message 0 (RVal.normal 7)]) 0).threads =
        (execRun (initExec 2)
      [ExecLabel.execute true, ExecLabel.online 0, ExecLabel.resume 0, ExecLabel.cacheDone 0,
       ExecLabel.message 0 (RVal.normal 7)]).threads
     ∧ (stepTimer (execRun (initExec 2)
      [ExecLabel.execute true, ExecLabel.online 0, ExecLabel.resume 0, ExecLabel.cacheDone 0,
       ExecLabel.message 0 (RVal.normal 7)]) 0).objs =
        (execRun (initExec 2)
      [ExecLabel.execute true, ExecLabel.online 0, ExecLabel.resume 0, ExecLabel.cacheDone 0,
       ExecLabel.message 0 (RVal.normal 7)]).objs
     ∧ (stepTimer (execRun (initExec 2)
      [ExecLabel.execute true, ExecLabel.online 0, ExecLabel.resume 0, ExecLabel.cacheDone 0,
       ExecLabel.message 0 (RVal.normal 7)]) 0).records =
        (execRun (initExec 2)
      [ExecLabel.execute true, ExecLabel.online 0, ExecLabel.resume 0, ExecLabel.cacheDone 0,
       ExecLabel.message 0 (RVal.normal 7)]).records
     ∧ (stepTimer (execRun (initExec 2)
      [ExecLabel.execute true, ExecLabel.online 0, ExecLabel.resume 0, ExecLabel.cacheDone 0,
       ExecLabel.message 0 (RVal.normal 7)]) 0).tasks =
        (execRun (initExec 2)
      [ExecLabel.execute true, ExecLabel.online 0, ExecLabel.resume 0, ExecLabel.cacheDone 0,
       ExecLabel.message 0 (RVal.normal 7)]).tasks
     ∧ (stepTimer (execRun (initExec 2)
      [ExecLabel.execute true, ExecLabel.online 0, ExecLabel.resume 0, ExecLabel.cacheDone 0,
       ExecLabel.message 0 (RVal.normal 7)]) 0).terminated =
        (execRun (initExec 2)
      [ExecLabel.execute true, ExecLabel.online 0, ExecLabel.resume 0, ExecLabel.cacheDone 0,
       ExecLabel.message 0 (RVal.normal 7)]).terminated) :=
  ⟨c5_watchdog.1 (execRun (initExec 2)
      [ExecLabel.execute true, ExecLabel.online 0, ExecLabel.resume 0, ExecLabel.cacheDone 0])
      0
      { task := some { tid := 0, loadable := true }, threadWorkerId := 0, slotIndex := 0,
        running := true, timeoutFlag := false, timerArmed := true, phase := CtxPhase.launched }
      { index := 0, busy := true, handler := some 0 }
      { tid := 0, loadable := true } { outcome := none, statsCount := 0 }
      rfl rfl rfl rfl rfl rfl rfl rfl,
   c5_watchdog.2 (execRun (initExec 2)
      [ExecLabel.execute true, ExecLabel.online 0, ExecLabel.resume 0, ExecLabel.cacheDone 0,
       ExecLabel.message 0 (RVal.normal 7)]) 0
      { task := some { tid := 0, loadable := true }, threadWorkerId := 0, slotIndex := 0,
        running := false, timeoutFlag := false, timerArmed := true, phase := CtxPhase.launched }
      rfl rfl⟩

/-- C6: behaviour at the failing input — `execute` on a task whose
module bytes cannot be loaded.  The task is pushed onto the queue, a
worker slot is marked busy before the cache load, and when
`await this.cache.get(...)` rejects the `_work` body aborts: the slot
stays busy, the task's promise is never settled (no `Fault(LoadFailure)`
reaches the caller), and no pending continuation or worker creation is
left that could free the slot. -/
theorem c6_load_failure_leaks_slot :
    (execRun (initExec 2) [ExecLabel.execute false]).tasks =
      [{ tid := 0, loadable := false }]
    ∧ countOfBusyWorkers (execRun (initExec 2)
      [ExecLabel.execute false, ExecLabel.online 0, ExecLabel.resume 0,
       ExecLabel.cacheFail 0]) = 1
    ∧ (execRun (initExec 2)
      [ExecLabel.execute false, ExecLabel.online 0, ExecLabel.resume 0,
       ExecLabel.cacheFail 0]).records 0 = some { outcome := none, statsCount := 0 }
    ∧ (execRun (initExec 2)
      [ExecLabel.execute false, ExecLabel.online 0, ExecLabel.resume 0,
       ExecLabel.cacheFail 0]).dispatches 0 =
      some { task := some { tid := 0, loadable := false }, threadWorkerId := 0, slotIndex := 0,
             running := true, timeoutFlag := false, timerArmed := false,
             phase := CtxPhase.dead }
    ∧ (∀ wid : Nat, (execRun (initExec 2)
      [ExecLabel.execute false, ExecLabel.online 0, ExecLabel.resume 0,
       ExecLabel.cacheFail 0]).parked wid = none)
    ∧ (∀ cid : Nat, (execRun (initExec 2)
      [ExecLabel.execute false, ExecLabel.online 0, ExecLabel.resume 0,
       ExecLabel.cacheFail 0]).creations cid = none) := by
  refine ⟨rfl, rfl, rfl, rfl, fun wid => ?_, fun cid => ?_⟩
  · show upd (upd (upd (fun _ => none) 0
      (some (ParkedWork.awaitingCreation 0))) 0 (some (ParkedWork.awaitingWorker (some 0))))
      0 none wid = none
    by_cases h : wid = 0 <;> simp [upd, h]
  · show upd (upd (fun _ => none) 0 (some ({ slot := 0, wid := 0 } : Creation))) 0 none cid = none
    by_cases h : cid = 0 <;> simp [upd, h]

/-- C9: for a registered module whose execution fails, `Platform.exec`'s
`.catch` converts the rejected execution promise into one resolved with
`undefined`, so the HTTP layer answers status 200 with body
`undefined`. -/
theorem c9_fault_masked_as_200 (registry : Registry) (m : String)
    (entry : ModuleEntry) (err : String) (hreg : registry m = some entry) :
    Platform.exec registry m (PromiseResult.rejectedWith err) =
      Except.ok (PromiseResult.resolvedWith JsVal.undef)
    ∧ processControllerResult (Platform.exec registry m (PromiseResult.rejectedWith err)) =
      (200, "undefined") := by
  simp [Platform.exec, hreg, execCatch, processControllerResult, jsValToString]

/-- C9 witness: a freshly registered module whose execution rejects is
answered with 200 and body `undefined`. -/
theorem c9_fault_masked_as_200_witness :
    Platform.exec (Platform.register (fun _ => none) "sum").1 "sum"
      (PromiseResult.rejectedWith "timeout 5000ms") =
      Except.ok (PromiseResult.resolvedWith JsVal.undef)
    ∧ processControllerResult (Platform.exec (Platform.register (fun _ => none) "sum").1 "sum"
      (PromiseResult.rejectedWith "timeout 5000ms")) = (200, "undefined") :=
  c9_fault_masked_as_200 (Platform.register (fun _ => none) "sum").1 "sum"
    { name := "sum", wasmFile := "./sum.wasm",
      stats := { time := 0, counter := 0 } } "timeout 5000ms" rfl

/-- C10: `register` on an already-registered name unconditionally
overwrites the registry entry with a fresh one whose statistics are
zero, so prior usage counters are never preserved. -/
theorem c10_register_resets_stats (registry : Registry) (m : String)
    (e : ModuleEntry) (hprev : registry m = some e) :
    (Platform.register registry m).1 m =
      some { name := m, wasmFile := "./" ++ m ++ ".wasm",
             stats := { time := 0, counter := 0 } }
    ∧ Platform.stats (Platform.register registry m).1 m =
      Except.ok "execution time: 0ms\nnumber of requests: 0" := by
  simp [Platform.register, Platform.stats]
  rfl

/-- C10 witness: re-registering a module with accumulated statistics
resets them to zero. -/
theorem c10_register_resets_stats_witness :
    (Platform.register
      (fun m => if m = "sum" then
          some { name := "sum", wasmFile := "./sum.wasm",
                 stats := { time := 125, counter := 3 } }
        else none) "sum").1 "sum" =
      some { name := "sum", wasmFile := "./sum.wasm",
             stats := { time := 0, counter := 0 } }
    ∧ Platform.stats (Platform.register
      (fun m => if m = "sum" then
          some { name := "sum", wasmFile := "./sum.wasm",
                 stats := { time := 125, counter := 3 } }
        else none) "sum").1 "sum" =
      Except.ok "execution time: 0ms\nnumber of requests: 0" := by
  have h := c10_register_resets_stats
    (fun m => if m = "sum" then
        some { name := "sum", wasmFile := "./sum.wasm",
               stats := { time := 125, counter := 3 } }
      else none) "sum"
    { name := "sum", wasmFile := "./sum.wasm", stats := { time := 125, counter := 3 } }
    (by simp)
  simpa using h

/-! ## Cache stability lemmas -/

theorem cache_run_append (s : CacheState) (l1 l2 : List CacheOp) :
    Cache.run s (l1 ++ l2) = Cache.run (Cache.run s l1) l2 := by
  induction l1 generalizing s with
  | nil => rfl
  | cons op ops ih => exact ih (Cache.step op s)

theorem cache_step_ttl (op : CacheOp) (s : CacheState) : (Cache.step op s).ttl = s.ttl := by
  cases op <;> unfold Cache.step <;> (repeat' split) <;> rfl

theorem cache_step_sup (op : CacheOp) (s : CacheState) : (Cache.step op s).sup = s.sup := by
  cases op <;> unfold Cache.step <;> (repeat' split) <;> rfl

/-- One cache event that does not address key `k` (and cannot reach it
through a pending get) leaves `k`'s entry in place, provided it runs
before the entry's timestamp plus the TTL. -/
theorem cache_step_entry_stable (k : Nat) (e : CacheEntry) (op : CacheOp) (s : CacheState)
    (htouch : op.touchesKey k = false) (htime : op.time < e.timestamp + s.ttl)
    (hmap : s.map k = some e) (hpend : ∀ g k2, s.pending g = some k2 → k2 ≠ k) :
    (Cache.step op s).map k = some e
    ∧ (∀ g k2, (Cache.step op s).pending g = some k2 → k2 ≠ k) := by
  cases op with
  | getStart gid k2 now =>
    have hk2 : k2 ≠ k := by simpa [CacheOp.touchesKey] using htouch
    unfold Cache.step
    cases hcase : s.map k2 with
    | some e2 =>
      refine ⟨?_, ?_⟩
      · simp only [hcase]
        simp [Ne.symm hk2, hmap]
      · intro g k3 hg
        simp only [hcase] at hg
        exact hpend g k3 hg
    | none =>
      refine ⟨by simp only [hcase]; exact hmap, ?_⟩
      intro g k3 hg
      simp only [hcase] at hg
      by_cases hgid : g = gid
      · rw [if_pos hgid] at hg
        cases hg
        exact hk2
      · rw [if_neg hgid] at hg
        exact hpend g k3 hg
  | getFinish gid now =>
    unfold Cache.step
    cases hcase : s.pending gid with
    | some k3 =>
      have hk3 : k3 ≠ k := hpend gid k3 hcase
      refine ⟨?_, ?_⟩
      · simp only [hcase]
        simp [Ne.symm hk3, hmap]
      · intro g k4 hg
        simp only [hcase] at hg
        by_cases hgid : g = gid
        · rw [if_pos hgid] at hg
          cases hg
        · rw [if_neg hgid] at hg
          exact hpend g k4 hg
    | none =>
      simp only [hcase]
      exact ⟨hmap, hpend⟩
  | evict now =>
    unfold Cache.step
    refine ⟨?_, hpend⟩
    have hkeep : ¬ e.timestamp < now - s.ttl := by
      have : now < e.timestamp + s.ttl := htime
      omega
    simp [hmap, hkeep]

/-- Iterated form of `cache_step_entry_stable`. -/
theorem cache_run_entry_stable (k : Nat) (e : CacheEntry) :
    ∀ (ops : List CacheOp) (s : CacheState),
      s.map k = some e →
      (∀ g k2, s.pending g = some k2 → k2 ≠ k) →
      (∀ op ∈ ops, op.touchesKey k = false ∧ op.time < e.timestamp + s.ttl) →
      (Cache.run s ops).map k = some e
      ∧ (∀ g k2, (Cache.run s ops).pending g = some k2 → k2 ≠ k)
      ∧ (Cache.run s ops).ttl = s.ttl := by
  intro ops
  induction ops with
  | nil => exact fun s h1 h2 _ => ⟨h1, h2, rfl⟩
  | cons op ops ih =>
    intro s h1 h2 h3
    obtain ⟨htouch, htime⟩ := h3 op (List.mem_cons_self _ _)
    obtain ⟨h1s, h2s⟩ := cache_step_entry_stable k e op s htouch htime h1 h2
    have h3s : ∀ op2 ∈ ops, op2.touchesKey k = false
        ∧ op2.time < e.timestamp + (Cache.step op s).ttl := by
      intro op2 hm
      rw [cache_step_ttl]
      exact h3 op2 (List.mem_cons_of_mem _ hm)
    have := ih (Cache.step op s) h1s h2s h3s
    exact ⟨this.1, this.2.1, by
      show (Cache.run (Cache.step op s) ops).ttl = s.ttl
      rw [this.2.2, cache_step_ttl]⟩

/-- One cache event that does not address key `k` cannot create an
entry for `k`. -/
theorem cache_step_no_new_entry (k : Nat) (op : CacheOp) (s : CacheState)
    (htouch : op.touchesKey k = false)
    (hmap : s.map k = none) (hpend : ∀ g k2, s.pending g = some k2 → k2 ≠ k) :
    (Cache.step op s).map k = none
    ∧ (∀ g k2, (Cache.step op s).pending g = some k2 → k2 ≠ k) := by
  cases op with
  | getStart gid k2 now =>
    have hk2 : k2 ≠ k := by simpa [CacheOp.touchesKey] using htouch
    unfold Cache.step
    cases hcase : s.map k2 with
    | some e2 =>
      refine ⟨?_, ?_⟩
      · simp only [hcase]
        simp [Ne.symm hk2, hmap]
      · intro g k3 hg
        simp only [hcase] at hg
        exact hpend g k3 hg
    | none =>
      refine ⟨by simp only [hcase]; exact hmap, ?_⟩
      intro g k3 hg
      simp only [hcase] at hg
      by_cases hgid : g = gid
      · rw [if_pos hgid] at hg
        cases hg
        exact hk2
      · rw [if_neg hgid] at hg
        exact hpend g k3 hg
  | getFinish gid now =>
    unfold Cache.step
    cases hcase : s.pending gid with
    | some k3 =>
      have hk3 : k3 ≠ k := hpend gid k3 hcase
      refine ⟨?_, ?_⟩
      · simp only [hcase]
        simp [Ne.symm hk3, hmap]
      · intro g k4 hg
        simp only [hcase] at hg
        by_cases hgid : g = gid
        · rw [if_pos hgid] at hg
          cases hg
        · rw [if_neg hgid] at hg
          exact hpend g k4 hg
    | none =>
      simp only [hcase]
      exact ⟨hmap, hpend⟩
  | evict now =>
    unfold Cache.step
    exact ⟨by simp [hmap], hpend⟩

/-- Iterated form of `cache_step_no_new_entry`. -/
theorem cache_run_no_new_entry (k : Nat) :
    ∀ (ops : List CacheOp) (s : CacheState),
      s.map k = none →
      (∀ g k2, s.pending g = some k2 → k2 ≠ k) →
      (∀ op ∈ ops, op.touchesKey k = false) →
      (Cache.run s ops).map k = none
      ∧ (∀ g k2, (Cache.run s ops).pending g = some k2 → k2 ≠ k) := by
  intro ops
  induction ops with
  | nil => exact fun s h1 h2 _ => ⟨h1, h2⟩
  | cons op ops ih =>
    intro s h1 h2 h3
    obtain ⟨h1s, h2s⟩ := cache_step_no_new_entry k op s (h3 op (List.mem_cons_self _ _)) h1 h2
    exact ih (Cache.step op s) h1s h2s (fun op2 hm => h3 op2 (List.mem_cons_of_mem _ hm))

/-- Events not addressing `k` either keep `k`'s entry unchanged or (via
an eviction sweep) remove it. -/
theorem cache_run_keepOrDrop (k : Nat) (e : CacheEntry) :
    ∀ (ops : List CacheOp) (s : CacheState),
      (s.map k = some e ∨ s.map k = none) →
      (∀ g k2, s.pending g = some k2 → k2 ≠ k) →
      (∀ op ∈ ops, op.touchesKey k = false) →
      ((Cache.run s ops).map k = some e ∨ (Cache.run s ops).map k = none)
      ∧ (∀ g k2, (Cache.run s ops).pending g = some k2 → k2 ≠ k)
      ∧ (Cache.run s ops).ttl = s.ttl := by
  intro ops
  induction ops with
  | nil => exact fun s h1 h2 _ => ⟨h1, h2, rfl⟩
  | cons op ops ih =>
    intro s h1 h2 h3
    have htouch := h3 op (List.mem_cons_self _ _)
    have hstep : ((Cache.step op s).map k = some e ∨ (Cache.step op s).map k = none)
        ∧ (∀ g k2, (Cache.step op s).pending g = some k2 → k2 ≠ k) := by
      rcases h1 with h1 | h1
      · by_cases htime : op.time < e.timestamp + s.ttl
        · obtain ⟨ha, hb⟩ := cache_step_entry_stable k e op s htouch htime h1 h2
          exact ⟨Or.inl ha, hb⟩
        · cases op with
          | getStart gid k2 now =>
            have hk2 : k2 ≠ k := by simpa [CacheOp.touchesKey] using htouch
            unfold Cache.step
            cases hcase : s.map k2 with
            | some e2 =>
              refine ⟨Or.inl ?_, ?_⟩
              · simp only [hcase]
                simp [Ne.symm hk2, h1]
              · intro g k3 hg
                simp only [hcase] at hg
                exact h2 g k3 hg
            | none =>
              refine ⟨Or.inl (by simp only [hcase]; exact h1), ?_⟩
              intro g k3 hg
              simp only [hcase] at hg
              by_cases hgid : g = gid
              · rw [if_pos hgid] at hg
                cases hg
                exact hk2
              · rw [if_neg hgid] at hg
                exact h2 g k3 hg
          | getFinish gid now =>
            unfold Cache.step
            cases hcase : s.pending gid with
            | some k3 =>
              have hk3 : k3 ≠ k := h2 gid k3 hcase
              refine ⟨Or.inl ?_, ?_⟩
              · simp only [hcase]
                simp [Ne.symm hk3, h1]
              · intro g k4 hg
                simp only [hcase] at hg
                by_cases hgid : g = gid
                · rw [if_pos hgid] at hg
                  cases hg
                · rw [if_neg hgid] at hg
                  exact h2 g k4 hg
            | none =>
              simp only [hcase]
              exact ⟨Or.inl h1, h2⟩
          | evict now =>
            unfold Cache.step
            refine ⟨?_, h2⟩
            by_cases hdrop : e.timestamp < now - s.ttl
            · exact Or.inr (by simp [h1, hdrop])
            · exact Or.inl (by simp [h1, hdrop])
      · obtain ⟨ha, hb⟩ := cache_step_no_new_entry k op s htouch h1 h2
        exact ⟨Or.inr ha, hb⟩
    have := ih (Cache.step op s) hstep.1 hstep.2
      (fun op2 hm => h3 op2 (List.mem_cons_of_mem _ hm))
    exact ⟨this.1, this.2.1, by
      show (Cache.run (Cache.step op s) ops).ttl = s.ttl
      rw [this.2.2, cache_step_ttl]⟩

/-- C7 counterexample: two `get` calls for the same absent key that
overlap at the `await supplyFn(key)` suspension both see a miss and
both invoke the supplier — two calls completing at the same instant
(trivially within one TTL window) invoke the supplier twice. -/
theorem c7_counterexample :
    (Cache.run (Cache.init 2 (fun _ => 7))
      [CacheOp.getStart 1 5 0, CacheOp.getStart 2 5 0,
       CacheOp.getFinish 1 0, CacheOp.getFinish 2 0]).supplierCalls = 2
    ∧ (Cache.run (Cache.init 2 (fun _ => 7))
      [CacheOp.getStart 1 5 0, CacheOp.getStart 2 5 0,
       CacheOp.getFinish 1 0, CacheOp.getFinish 2 0]).returned 1 = some 7
    ∧ (Cache.run (Cache.init 2 (fun _ => 7))
      [CacheOp.getStart 1 5 0, CacheOp.getStart 2 5 0,
       CacheOp.getFinish 1 0, CacheOp.getFinish 2 0]).returned 2 = some 7
    ∧ ¬ ((Cache.run (Cache.init 2 (fun _ => 7))
      [CacheOp.getStart 1 5 0, CacheOp.getStart 2 5 0,
       CacheOp.getFinish 1 0, CacheOp.getFinish 2 0]).supplierCalls ≤ 1) := by
  refine ⟨rfl, rfl, rfl, ?_⟩
  intro h
  have h2 : (Cache.run (Cache.init 2 (fun _ => 7))
      [CacheOp.getStart 1 5 0, CacheOp.getStart 2 5 0,
       CacheOp.getFinish 1 0, CacheOp.getFinish 2 0]).supplierCalls = 2 := rfl
  omega

/-- C7 (amended): two sequential `get` calls for the same key — the
first completing (storing the entry at time `t1s`) before the second
starts at `t2`, with `t2` within one TTL of `t1s` and with any
interleaved activity that does not address the key and happens before
`t1s + ttl` — invoke the supplier exactly once in total and return
identical byte content (the second call returns the first call's cached
value).  Overlapping misses are excluded (see the counterexample). -/
theorem c7_amended_sequential_gets (s0 : CacheState) (k g1 g2 : Nat)
    (t1 t1s t2 : Int) (mid : List CacheOp)
    (hmap : s0.map k = none)
    (hpend : ∀ g k2, s0.pending g = some k2 → k2 ≠ k)
    (hmid : ∀ op ∈ mid, op.touchesKey k = false ∧ op.time < t1s + s0.ttl)
    (ht2 : t2 < t1s + s0.ttl) :
    (Cache.run s0 [CacheOp.getStart g1 k t1, CacheOp.getFinish g1 t1s]).supplierCalls
      = s0.supplierCalls + 1
    ∧ (Cache.run s0 [CacheOp.getStart g1 k t1, CacheOp.getFinish g1 t1s]).returned g1
      = some (s0.sup k)
    ∧ (Cache.step (CacheOp.getStart g2 k t2)
        (Cache.run (Cache.run s0 [CacheOp.getStart g1 k t1, CacheOp.getFinish g1 t1s]) mid)).supplierCalls
      = (Cache.run (Cache.run s0 [CacheOp.getStart g1 k t1, CacheOp.getFinish g1 t1s]) mid).supplierCalls
    ∧ (Cache.step (CacheOp.getStart g2 k t2)
        (Cache.run (Cache.run s0 [CacheOp.getStart g1 k t1, CacheOp.getFinish g1 t1s]) mid)).returned g2
      = some (s0.sup k) := by
  have h1 : Cache.run s0 [CacheOp.getStart g1 k t1, CacheOp.getFinish g1 t1s] =
      Cache.step (CacheOp.getFinish g1 t1s) (Cache.step (CacheOp.getStart g1 k t1) s0) := rfl
  have hstart : Cache.step (CacheOp.getStart g1 k t1) s0 =
      { s0 with pending := fun g => if g = g1 then some k else s0.pending g,
                supplierCalls := s0.supplierCalls + 1 } := by
    unfold Cache.step
    simp [hmap]
  have hfin : Cache.run s0 [CacheOp.getStart g1 k t1, CacheOp.getFinish g1 t1s] =
      { s0 with
          pending := fun g => if g = g1 then none else
            (if g = g1 then some k else s0.pending g),
          map := fun k2 => if k2 = k then some { value := s0.sup k, timestamp := t1s }
            else s0.map k2,
          returned := fun g => if g = g1 then some (s0.sup k) else s0.returned g,
          supplierCalls := s0.supplierCalls + 1 } := by
    rw [h1, hstart]
    unfold Cache.step
    simp
  set s1 := Cache.run s0 [CacheOp.getStart g1 k t1, CacheOp.getFinish g1 t1s] with hs1
  have hs1map : s1.map k = some { value := s0.sup k, timestamp := t1s } := by
    rw [hfin]; simp
  have hs1pend : ∀ g k2, s1.pending g = some k2 → k2 ≠ k := by
    intro g k2 hg
    rw [hfin] at hg
    simp only at hg
    by_cases hgid : g = g1
    · rw [if_pos hgid] at hg
      cases hg
    · rw [if_neg hgid, if_neg hgid] at hg
      exact hpend g k2 hg
  have hs1ttl : s1.ttl = s0.ttl := by rw [hfin]
  have hstable := cache_run_entry_stable k { value := s0.sup k, timestamp := t1s } mid s1
    hs1map hs1pend (by
      intro op hm
      rw [hs1ttl]
      exact hmid op hm)
  refine ⟨by rw [hfin], by rw [hfin]; simp, ?_, ?_⟩
  · unfold Cache.step
    simp only [hstable.1]
  · unfold Cache.step
    simp only [hstable.1]
    simp

/-- C7 witness: the amended sequential-get theorem at a concrete cache,
with an eviction sweep between the two calls. -/
theorem c7_amended_sequential_gets_witness :
    (Cache.run (Cache.init 2 (fun _ => 7))
      [CacheOp.getStart 1 5 0, CacheOp.getFinish 1 0]).supplierCalls = 0 + 1
    ∧ (Cache.run (Cache.init 2 (fun _ => 7))
      [CacheOp.getStart 1 5 0, CacheOp.getFinish 1 0]).returned 1 = some 7
    ∧ (Cache.step (CacheOp.getStart 2 5 1)
        (Cache.run (Cache.run (Cache.init 2 (fun _ => 7))
          [CacheOp.getStart 1 5 0, CacheOp.getFinish 1 0]) [CacheOp.evict 1])).supplierCalls
      = (Cache.run (Cache.run (Cache.init 2 (fun _ => 7))
          [CacheOp.getStart 1 5 0, CacheOp.getFinish 1 0]) [CacheOp.evict 1]).supplierCalls
    ∧ (Cache.step (CacheOp.getStart 2 5 1)
        (Cache.run (Cache.run (Cache.init 2 (fun _ => 7))
          [CacheOp.getStart 1 5 0, CacheOp.getFinish 1 0]) [CacheOp.evict 1])).returned 2
      = some 7 := by
  have h := c7_amended_sequential_gets (Cache.init 2 (fun _ => 7)) 5 1 2 0 0 1
    [CacheOp.evict 1] rfl
    (by intro g k2 hg; cases hg)
    (by
      intro op hm
      simp only [List.mem_singleton] at hm
      subst hm
      exact ⟨rfl, by norm_num [CacheOp.time, Cache.init]⟩)
    (by norm_num [Cache.init])
  exact h

/-- C8 counterexample: entry stored at time 1 with `ttl = 2`; the sweep
at time 2 (one TTL after construction) does not remove it (it removes
only entries with `timestamp < now - ttl`); a `get` at time 3 — idle
time exactly `ttl` — still returns the cached value and does not invoke
the supplier afresh. -/
theorem c8_counterexample :
    (Cache.run (Cache.init 2 (fun _ => 7))
      [CacheOp.getStart 1 5 1, CacheOp.getFinish 1 1,
       CacheOp.evict 2, CacheOp.getStart 2 5 3]).supplierCalls = 1
    ∧ (Cache.run (Cache.init 2 (fun _ => 7))
      [CacheOp.getStart 1 5 1, CacheOp.getFinish 1 1,
       CacheOp.evict 2, CacheOp.getStart 2 5 3]).returned 2 = some 7
    ∧ (Cache.run (Cache.init 2 (fun _ => 7))
      [CacheOp.getStart 1 5 1, CacheOp.getFinish 1 1,
       CacheOp.evict 2, CacheOp.getStart 2 5 3]).map 5 =
      some { value := 7, timestamp := 3 }
    ∧ ¬ ((Cache.run (Cache.init 2 (fun _ => 7))
      [CacheOp.getStart 1 5 1, CacheOp.getFinish 1 1,
       CacheOp.evict 2, CacheOp.getStart 2 5 3]).supplierCalls = 2) := by
  refine ⟨rfl, rfl, rfl, ?_⟩
  intro h
  have h2 : (Cache.run (Cache.init 2 (fun _ => 7))
      [CacheOp.getStart 1 5 1, CacheOp.getFinish 1 1,
       CacheOp.evict 2, CacheOp.getStart 2 5 3]).supplierCalls = 1 := rfl
  omega

/-- On a miss, `get` invokes the supplier (one more supplier call). -/
theorem cache_step_getStart_miss (s : CacheState) (g k : Nat) (t : Int)
    (h : s.map k = none) :
    (Cache.step (CacheOp.getStart g k t) s).supplierCalls = s.supplierCalls + 1 := by
  unfold Cache.step
  simp [h]

/-- C8 (amended): an entry is absent — and a fresh `get` re-invokes the
supplier — once some eviction sweep runs strictly later than
`lastAccess + ttl` (and no access to the key intervenes); with sweeps
every `ttl` starting at any `c`, such a sweep exists by the time of any
lookup at least `2·ttl` after `lastAccess` (final conjunct).  Staleness
up to just under `2·ttl` remains possible (see the counterexample). -/
theorem c8_amended_eviction_bound (s0 : CacheState) (k g : Nat) (e : CacheEntry)
    (tq sweepT : Int) (mid1 mid2 : List CacheOp)
    (hmap : s0.map k = some e)
    (hpend : ∀ g2 k2, s0.pending g2 = some k2 → k2 ≠ k)
    (hmid1 : ∀ op ∈ mid1, op.touchesKey k = false)
    (hmid2 : ∀ op ∈ mid2, op.touchesKey k = false)
    (hsweep : e.timestamp + s0.ttl < sweepT) :
    (Cache.run s0 (mid1 ++ CacheOp.evict sweepT :: mid2)).map k = none
    ∧ (Cache.step (CacheOp.getStart g k tq)
        (Cache.run s0 (mid1 ++ CacheOp.evict sweepT :: mid2))).supplierCalls
      = (Cache.run s0 (mid1 ++ CacheOp.evict sweepT :: mid2)).supplierCalls + 1
    ∧ (∀ (ttl t0 c target : Int), 0 < ttl → t0 + 2 * ttl ≤ target →
        ∃ i : Int, t0 + ttl < c + i * ttl ∧ c + i * ttl ≤ target) := by
  have hrun : Cache.run s0 (mid1 ++ CacheOp.evict sweepT :: mid2) =
      Cache.run (Cache.step (CacheOp.evict sweepT) (Cache.run s0 mid1)) mid2 := by
    rw [cache_run_append]
    rfl
  have hkd := cache_run_keepOrDrop k e mid1 s0 (Or.inl hmap) hpend hmid1
  have hefter : (Cache.step (CacheOp.evict sweepT) (Cache.run s0 mid1)).map k = none := by
    unfold Cache.step
    rcases hkd.1 with h | h
    · have : e.timestamp < sweepT - (Cache.run s0 mid1).ttl := by
        rw [hkd.2.2]
        omega
      simp [h, this]
    · simp [h]
  have hpend2 : ∀ g2 k2,
      (Cache.step (CacheOp.evict sweepT) (Cache.run s0 mid1)).pending g2 = some k2 → k2 ≠ k := by
    intro g2 k2 hg
    exact hkd.2.1 g2 k2 hg
  have hfinal := cache_run_no_new_entry k mid2
    (Cache.step (CacheOp.evict sweepT) (Cache.run s0 mid1)) hefter hpend2 hmid2
  refine ⟨by rw [hrun]; exact hfinal.1, ?_, ?_⟩
  · rw [hrun]
    exact cache_step_getStart_miss _ g k tq hfinal.1
  · intro ttl t0 c target httl htarget
    refine ⟨(t0 + ttl - c) / ttl + 1, ?_, ?_⟩
    · have h1 := Int.ediv_add_emod (t0 + ttl - c) ttl
      have h2 := Int.emod_nonneg (t0 + ttl - c) (ne_of_gt httl)
      have h3 := Int.emod_lt_of_pos (t0 + ttl - c) httl
      nlinarith [h1, h2, h3]
    · have h1 := Int.ediv_add_emod (t0 + ttl - c) ttl
      have h2 := Int.emod_nonneg (t0 + ttl - c) (ne_of_gt httl)
      have h3 := Int.emod_lt_of_pos (t0 + ttl - c) httl
      nlinarith [h1, h2, h3]

/-- C8 witness: the amended eviction bound at a concrete cache — entry
last accessed at time 1 with `ttl = 2`, sweep at time 4 (later than
`lastAccess + ttl`), lookup at time 5 misses and calls the supplier. -/
theorem c8_amended_eviction_bound_witness :
    (Cache.run
      { ttl := 2, sup := fun _ => 7,
        map := fun k2 => if k2 = 5 then some { value := 7, timestamp := 1 } else none,
        pending := fun _ => none, supplierCalls := 1, returned := fun _ => none }
      ([] ++ CacheOp.evict 4 :: [])).map 5 = none
    ∧ (Cache.step (CacheOp.getStart 2 5 5)
        (Cache.run
          { ttl := 2, sup := fun _ => 7,
            map := fun k2 => if k2 = 5 then some { value := 7, timestamp := 1 } else none,
            pending := fun _ => none, supplierCalls := 1, returned := fun _ => none }
          ([] ++ CacheOp.evict 4 :: []))).supplierCalls
      = (Cache.run
          { ttl := 2, sup := fun _ => 7,
            map := fun k2 => if k2 = 5 then some { value := 7, timestamp := 1 } else none,
            pending := fun _ => none, supplierCalls := 1, returned := fun _ => none }
          ([] ++ CacheOp.evict 4 :: [])).supplierCalls + 1
    ∧ (∃ i : Int, 1 + 2 < 0 + i * 2 ∧ 0 + i * 2 ≤ 5) := by
  have h := c8_amended_eviction_bound
    { ttl := 2, sup := fun _ => 7,
      map := fun k2 => if k2 = 5 then some { value := 7, timestamp := 1 } else none,
      pending := fun _ => none, supplierCalls := 1, returned := fun _ => none }
    5 2 { value := 7, timestamp := 1 } 5 4 [] [] (by simp)
    (by
      intro g2 k2 hg
      cases hg)
    (by intro op hm; cases hm)
    (by intro op hm; cases hm)
    (by norm_num)
  exact ⟨h.1, h.2.1, h.2.2 2 1 0 5 (by norm_num) (by norm_num)⟩

/-! ## Executor invariants (pool bound and task-identity bookkeeping) -/

theorem settleTaskResolve_poolSize (s : ExecState) (tid : Nat) (v : RVal) :
    (settleTaskResolve s tid v).poolSize = s.poolSize :=
  (settleTaskResolve_proj s tid v).2.2.2.2.2

theorem settleTaskReject_poolSize (s : ExecState) (tid : Nat) (e : Reason) :
    (settleTaskReject s tid e).poolSize = s.poolSize :=
  (settleTaskReject_proj s tid e).2.2.2.2.2

theorem execStep_poolSize (l : ExecLabel) (s : ExecState) :
    (execStep l s).poolSize = s.poolSize := by
  cases l with
  | execute b =>
    show (stepExecute s b).poolSize = s.poolSize
    unfold stepExecute
    rw [workSync_poolSize]
  | online cid =>
    show (stepOnline s cid).poolSize = s.poolSize
    unfold stepOnline
    (repeat' split) <;> rfl
  | resume wid =>
    show (stepResume s wid).poolSize = s.poolSize
    unfold stepResume
    dsimp only
    (repeat' split) <;> rfl
  | cacheDone wid =>
    show (stepCacheDone s wid).poolSize = s.poolSize
    unfold stepCacheDone
    (repeat' split) <;> rfl
  | cacheFail wid =>
    show (stepCacheFail s wid).poolSize = s.poolSize
    unfold stepCacheFail
    (repeat' split) <;> rfl
  | message wk r =>
    show (stepMessage s wk r).poolSize = s.poolSize
    unfold stepMessage
    (repeat' split) <;> simp [workSync_poolSize, settleTaskResolve_poolSize]
  | werror wk =>
    show (stepError s wk).poolSize = s.poolSize
    unfold stepError
    (repeat' split) <;> simp [workSync_poolSize, settleTaskReject_poolSize]
  | wexit wk code =>
    show (stepExit s wk code).poolSize = s.poolSize
    unfold stepExit
    (repeat' split) <;> simp [workSync_poolSize, settleTaskReject_poolSize]
  | timer wid =>
    show (stepTimer s wid).poolSize = s.poolSize
    unfold stepTimer
    (repeat' split) <;> rfl

theorem execRun_poolSize : ∀ (ls : List ExecLabel) (s : ExecState),
    (execRun s ls).poolSize = s.poolSize
| [], _ => rfl
| l :: ls, s => by
  rw [show execRun s (l :: ls) = execRun (execStep l s) ls from rfl,
    execRun_poolSize ls, execStep_poolSize]

theorem tidsOK_transport {s s2 : ExecState} (h : tidsOK s)
    (htasks : s2.tasks = s.tasks) (hnext : s2.nextTask = s.nextTask)
    (hdisp : ∀ wid ctx2 t, s2.dispatches wid = some ctx2 → ctx2.task = some t →
        ∃ ctx, s.dispatches wid = some ctx ∧ ctx.task = some t) : tidsOK s2 := by
  obtain ⟨⟨hnodup, hbound⟩, hdq, hdd⟩ := h
  refine ⟨⟨?_, ?_⟩, ?_, ?_⟩
  · rw [htasks]
    exact hnodup
  · rw [htasks, hnext]
    exact hbound
  · intro wid ctx2 t h1 h2
    obtain ⟨ctx, hc1, hc2⟩ := hdisp wid ctx2 t h1 h2
    rw [hnext, htasks]
    exact hdq wid ctx t hc1 hc2
  · intro w1 w2 c1 c2 t1 t2 hne h1 h2 ht1 ht2
    obtain ⟨d1, hd1, hdt1⟩ := hdisp w1 c1 t1 h1 ht1
    obtain ⟨d2, hd2, hdt2⟩ := hdisp w2 c2 t2 h2 ht2
    exact hdd w1 w2 d1 d2 t1 t2 hne hd1 hd2 hdt1 hdt2

theorem tidsOK_workSync {s : ExecState} (h : tidsOK s) : tidsOK (workSync s) :=
  tidsOK_transport h (workSync_tasks s) (workSync_nextTask s)
    (fun wid ctx2 t h1 h2 =>
      ⟨ctx2, by rw [workSync_dispatches] at h1; exact h1, h2⟩)

theorem tidsOK_settleResolve {s : ExecState} (tid : Nat) (v : RVal) (h : tidsOK s) :
    tidsOK (settleTaskResolve s tid v) :=
  tidsOK_transport h (settleTaskResolve_proj s tid v).1 (settleTaskResolve_proj s tid v).2.1
    (fun wid ctx2 t h1 h2 =>
      ⟨ctx2, by rw [(settleTaskResolve_proj s tid v).2.2.1] at h1; exact h1, h2⟩)

theorem tidsOK_settleReject {s : ExecState} (tid : Nat) (e : Reason) (h : tidsOK s) :
    tidsOK (settleTaskReject s tid e) :=
  tidsOK_transport h (settleTaskReject_proj s tid e).1 (settleTaskReject_proj s tid e).2.1
    (fun wid ctx2 t h1 h2 =>
      ⟨ctx2, by rw [(settleTaskReject_proj s tid e).2.2.1] at h1; exact h1, h2⟩)

/-- Replacing the context of dispatch `wid` by one with the same task
(while leaving the queue and task counter unchanged) preserves the
task-identity invariant. -/
theorem tidsOK_updCtx {s s2 : ExecState} {wid : Nat} {ctx ctxU : DispatchCtx}
    (hctx : s.dispatches wid = some ctx)
    (hdisp2 : s2.dispatches = upd s.dispatches wid (some ctxU))
    (htask : ctxU.task = ctx.task)
    (htasks : s2.tasks = s.tasks) (hnext : s2.nextTask = s.nextTask)
    (h : tidsOK s) : tidsOK s2 := by
  refine tidsOK_transport h htasks hnext ?_
  intro wid2 ctx2 t h1 h2
  rw [hdisp2] at h1
  by_cases hw : wid2 = wid
  · subst hw
    rw [upd_self] at h1
    cases h1
    exact ⟨ctx, hctx, by rw [← htask]; exact h2⟩
  · rw [upd_ne _ _ _ _ hw] at h1
    exact ⟨ctx2, h1, h2⟩

theorem tidsOK_stepExecute {s : ExecState} (b : Bool) (h : tidsOK s) :
    tidsOK (stepExecute s b) := by
  unfold stepExecute
  apply tidsOK_workSync
  obtain ⟨⟨hnodup, hbound⟩, hdq, hdd⟩ := h
  refine ⟨⟨?_, ?_⟩, ?_, ?_⟩
  · show ((s.tasks ++ [({ tid := s.nextTask, loadable := b } : QTask)]).map QTask.tid).Nodup
    rw [List.map_append, List.nodup_append]
    refine ⟨hnodup, List.nodup_singleton _, ?_⟩
    intro a ha hb
    simp only [List.map_cons, List.map_nil, List.mem_singleton] at hb
    subst hb
    obtain ⟨q, hq, hqa⟩ := List.mem_map.mp ha
    have := hbound q hq
    omega
  · intro q hq
    show q.tid < s.nextTask + 1
    rcases List.mem_append.mp hq with hq | hq
    · have := hbound q hq
      omega
    · rw [List.mem_singleton] at hq
      subst hq
      show s.nextTask < s.nextTask + 1
      omega
  · intro wid ctx t h1 h2
    obtain ⟨hlt, hall⟩ := hdq wid ctx t h1 h2
    refine ⟨?_, ?_⟩
    · show t.tid < s.nextTask + 1
      omega
    · intro q hq
      rcases List.mem_append.mp hq with hq | hq
      · exact hall q hq
      · rw [List.mem_singleton] at hq
        subst hq
        show s.nextTask ≠ t.tid
        omega
  · intro w1 w2 c1 c2 t1 t2 hne h1 h2 ht1 ht2
    exact hdd w1 w2 c1 c2 t1 t2 hne h1 h2 ht1 ht2

theorem tidsOK_stepOnline {s : ExecState} (cid : Nat) (h : tidsOK s) :
    tidsOK (stepOnline s cid) := by
  unfold stepOnline
  split
  · exact h
  · exact tidsOK_transport h rfl rfl (fun wid ctx2 t h1 h2 => ⟨ctx2, h1, h2⟩)

theorem tidsOK_stepTimer {s : ExecState} (wid : Nat) (h : tidsOK s) :
    tidsOK (stepTimer s wid) := by
  unfold stepTimer
  split
  · exact h
  next ctx hctx =>
    split
    · split
      · exact tidsOK_updCtx hctx rfl rfl rfl rfl h
      · exact tidsOK_updCtx hctx rfl rfl rfl rfl h
    · exact h

theorem tidsOK_stepCacheDone {s : ExecState} (wid : Nat) (h : tidsOK s) :
    tidsOK (stepCacheDone s wid) := by
  unfold stepCacheDone
  split
  next ctx hctx =>
    split
    · split
      · split
        · exact tidsOK_updCtx hctx rfl rfl rfl rfl h
        · exact h
      · exact h
    · exact h
  · exact h

theorem tidsOK_stepCacheFail {s : ExecState} (wid : Nat) (h : tidsOK s) :
    tidsOK (stepCacheFail s wid) := by
  unfold stepCacheFail
  split
  next ctx hctx =>
    split
    · split
      · split
        · exact h
        · exact tidsOK_updCtx hctx rfl rfl rfl rfl h
      · exact h
    · exact h
  · exact h

theorem tidsOK_stepMessage {s : ExecState} (wk : Nat) (r : RVal) (h : tidsOK s) :
    tidsOK (stepMessage s wk r) := by
  unfold stepMessage
  split
  · exact h
  · split
    · exact h
    · split
      · exact h
      · split
        · exact h
        next ctx hctx =>
          dsimp only
          split
          · apply tidsOK_workSync
            apply tidsOK_settleResolve
            exact tidsOK_updCtx hctx rfl rfl rfl rfl h
          · exact tidsOK_updCtx hctx rfl rfl rfl rfl h

theorem tidsOK_stepError {s : ExecState} (wk : Nat) (h : tidsOK s) :
    tidsOK (stepError s wk) := by
  unfold stepError
  split
  · exact h
  · split
    · exact h
    · split
      · exact h
      · split
        · exact h
        next ctx hctx =>
          dsimp only
          split
          · apply tidsOK_workSync
            apply tidsOK_settleReject
            exact tidsOK_updCtx hctx rfl rfl rfl rfl h
          · exact tidsOK_updCtx hctx rfl rfl rfl rfl h

theorem tidsOK_stepExit {s : ExecState} (wk code : Nat) (h : tidsOK s) :
    tidsOK (stepExit s wk code) := by
  unfold stepExit
  split
  · exact h
  · split
    · exact h
    next wid hwid =>
      split
      · exact h
      next ctx hctx =>
        split
        · split
          next t htask =>
            dsimp only
            apply tidsOK_workSync
            have hs1 : tidsOK (if ctx.timeoutFlag then settleTaskReject s t.tid Reason.timeoutMsg
                else settleTaskReject s t.tid (Reason.exitCode code)) := by
              split
              · exact tidsOK_settleReject _ _ h
              · exact tidsOK_settleReject _ _ h
            have hd1 : (if ctx.timeoutFlag then settleTaskReject s t.tid Reason.timeoutMsg
                else settleTaskReject s t.tid (Reason.exitCode code)).dispatches wid = some ctx := by
              split
              · rw [(settleTaskReject_proj _ _ _).2.2.1]
                exact hctx
              · rw [(settleTaskReject_proj _ _ _).2.2.1]
                exact hctx
            exact tidsOK_updCtx hd1 rfl rfl rfl rfl hs1
          · exact tidsOK_transport h rfl rfl (fun wid2 ctx2 t h1 h2 => ⟨ctx2, h1, h2⟩)
        · apply tidsOK_workSync
          exact tidsOK_updCtx hctx rfl rfl rfl rfl h

/-- Dispatching the popped last task to a free thread preserves the
task-identity invariant: the task leaves the queue as it enters the
dispatch table. -/
theorem tidsOK_dispatchPop (s : ExecState) (wid wk : Nat) (o : ThreadObj) (t : QTask)
    (hlast : s.tasks.getLast? = some t) (h : tidsOK s) :
    tidsOK { s with
      tasks := s.tasks.dropLast,
      objs := upd s.objs wk (some { o with busy := true, handler := some wid }),
      dispatches := upd s.dispatches wid (some
        { task := some t, threadWorkerId := wk, slotIndex := o.index,
          running := true, timeoutFlag := false, timerArmed := false,
          phase := CtxPhase.loading }) } := by
  obtain ⟨⟨hnodup, hbound⟩, hdq, hdd⟩ := h
  have hsplit : s.tasks.dropLast ++ [t] = s.tasks :=
    List.dropLast_append_getLast? t hlast
  have htmem : t ∈ s.tasks := by
    rw [← hsplit]
    exact List.mem_append_right _ (List.mem_singleton.mpr rfl)
  have hnd : ((s.tasks.dropLast.map QTask.tid) ++ [t.tid]).Nodup := by
    have h2 : (s.tasks.dropLast ++ [t]).map QTask.tid = s.tasks.map QTask.tid := by
      rw [hsplit]
    rw [List.map_append] at h2
    simp only [List.map_cons, List.map_nil] at h2
    rw [h2]
    exact hnodup
  have hnd2 := List.nodup_append.mp hnd
  have hnotin : t.tid ∉ s.tasks.dropLast.map QTask.tid := fun hm =>
    hnd2.2.2 hm (List.mem_singleton.mpr rfl)
  refine ⟨⟨hnd2.1, ?_⟩, ?_, ?_⟩
  · intro q hq
    show q.tid < s.nextTask
    exact hbound q (List.dropLast_subset _ hq)
  · intro wid2 ctx2 t2 h1 h2
    show t2.tid < s.nextTask ∧ ∀ q ∈ s.tasks.dropLast, q.tid ≠ t2.tid
    have h1s : upd s.dispatches wid (some
        { task := some t, threadWorkerId := wk, slotIndex := o.index,
          running := true, timeoutFlag := false, timerArmed := false,
          phase := CtxPhase.loading }) wid2 = some ctx2 := h1
    by_cases hw : wid2 = wid
    · subst hw
      rw [upd_self] at h1s
      cases h1s
      have h2s : t = t2 := Option.some.inj h2
      subst h2s
      refine ⟨hbound t htmem, ?_⟩
      intro q hq hqt
      apply hnotin
      rw [← hqt]
      exact List.mem_map.mpr ⟨q, hq, rfl⟩
    · rw [upd_ne _ _ _ _ hw] at h1s
      obtain ⟨hlt, hall⟩ := hdq wid2 ctx2 t2 h1s h2
      exact ⟨hlt, fun q hq => hall q (List.dropLast_subset _ hq)⟩
  · intro w1 w2 c1 c2 t1 t2 hne h1 h2 ht1 ht2
    show t1.tid ≠ t2.tid
    have h1s : upd s.dispatches wid (some
        { task := some t, threadWorkerId := wk, slotIndex := o.index,
          running := true, timeoutFlag := false, timerArmed := false,
          phase := CtxPhase.loading }) w1 = some c1 := h1
    have h2s : upd s.dispatches wid (some
        { task := some t, threadWorkerId := wk, slotIndex := o.index,
          running := true, timeoutFlag := false, timerArmed := false,
          phase := CtxPhase.loading }) w2 = some c2 := h2
    by_cases hw1 : w1 = wid
    · subst hw1
      rw [upd_self] at h1s
      cases h1s
      have ht1s : t = t1 := Option.some.inj ht1
      subst ht1s
      rw [upd_ne _ _ _ _ (Ne.symm hne)] at h2s
      exact ((hdq w2 c2 t2 h2s ht2).2 t htmem)
    · rw [upd_ne _ _ _ _ hw1] at h1s
      by_cases hw2 : w2 = wid
      · subst hw2
        rw [upd_self] at h2s
        cases h2s
        have ht2s : t = t2 := Option.some.inj ht2
        subst ht2s
        exact ((hdq w1 c1 t1 h1s ht1).2 t htmem).symm
      · rw [upd_ne _ _ _ _ hw2] at h2s
        exact hdd w1 w2 c1 c2 t1 t2 hne h1s h2s ht1 ht2

/-- Popping an empty queue installs a dispatch context with an
`undefined` task; the task-identity invariant is unaffected. -/
theorem tidsOK_dispatchEmptyPop (s : ExecState) (wid wk : Nat) (o : ThreadObj)
    (h : tidsOK s) :
    tidsOK { s with
      objs := upd s.objs wk (some { o with busy := true, handler := some wid }),
      dispatches := upd s.dispatches wid (some
        { task := none, threadWorkerId := wk, slotIndex := o.index,
          running := true, timeoutFlag := false, timerArmed := false,
          phase := CtxPhase.dead }) } := by
  refine tidsOK_transport h rfl rfl ?_
  intro wid2 ctx2 t h1 h2
  have h1s : upd s.dispatches wid (some
      { task := none, threadWorkerId := wk, slotIndex := o.index,
        running := true, timeoutFlag := false, timerArmed := false,
        phase := CtxPhase.dead }) wid2 = some ctx2 := h1
  by_cases hw : wid2 = wid
  · subst hw
    rw [upd_self] at h1s
    cases h1s
    exact Option.noConfusion h2
  · rw [upd_ne _ _ _ _ hw] at h1s
    exact ⟨ctx2, h1s, h2⟩

theorem tidsOK_stepResume {s : ExecState} (wid : Nat) (h : tidsOK s) :
    tidsOK (stepResume s wid) := by
  unfold stepResume
  split
  next res hres =>
    dsimp only
    have hs0 : tidsOK { s with parked := upd s.parked wid none } :=
      tidsOK_transport h rfl rfl (fun wid2 ctx2 t h1 h2 => ⟨ctx2, h1, h2⟩)
    split
    · exact hs0
    next wk =>
      split
      · exact hs0
      next o hobj =>
        split
        next t hlast =>
          exact tidsOK_dispatchPop _ wid wk o t hlast hs0
        next hlast =>
          exact tidsOK_dispatchEmptyPop _ wid wk o hs0
  next hother =>
    exact h

theorem tidsOK_execStep (l : ExecLabel) (s : ExecState) (h : tidsOK s) :
    tidsOK (execStep l s) := by
  cases l with
  | execute b => exact tidsOK_stepExecute b h
  | online cid => exact tidsOK_stepOnline cid h
  | resume wid => exact tidsOK_stepResume wid h
  | cacheDone wid => exact tidsOK_stepCacheDone wid h
  | cacheFail wid => exact tidsOK_stepCacheFail wid h
  | message wk r => exact tidsOK_stepMessage wk r h
  | werror wk => exact tidsOK_stepError wk h
  | wexit wk code => exact tidsOK_stepExit wk code h
  | timer wid => exact tidsOK_stepTimer wid h

theorem tidsOK_execRun : ∀ (ls : List ExecLabel) (s : ExecState),
    tidsOK s → tidsOK (execRun s ls)
| [], _, h => h
| l :: ls, s, h => tidsOK_execRun ls (execStep l s) (tidsOK_execStep l s h)

theorem tidsOK_initExec (n : Nat) : tidsOK (initExec n) := by
  refine ⟨⟨List.nodup_nil, ?_⟩, ?_, ?_⟩
  · intro q hq
    cases hq
  · intro wid ctx t h1 h2
    exact Option.noConfusion h1
  · intro w1 w2 c1 c2 t1 t2 hne h1 h2 ht1 ht2
    exact Option.noConfusion h1

/-- C2 (amended): in every state reachable by any interleaving, the
number of busy worker slots never exceeds the pool size, the ids of
queued tasks are pairwise distinct, and no two dispatches ever carry
the same task (no task is popped twice).  The same-slot clause of the
claim fails — see the counterexample. -/
theorem c2_amended_pool_invariants (n : Nat) (ls : List ExecLabel) :
    countOfBusyWorkers (execRun (initExec n) ls) ≤ n
    ∧ ((execRun (initExec n) ls).tasks.map QTask.tid).Nodup
    ∧ distinctDispatchTasks (execRun (initExec n) ls) := by
  have hp : (execRun (initExec n) ls).poolSize = n := execRun_poolSize ls (initExec n)
  have ht := tidsOK_execRun ls (initExec n) (tidsOK_initExec n)
  refine ⟨?_, ht.1.1, ht.2.2⟩
  have hb := countOfBusyWorkers_le_poolSize (execRun (initExec n) ls)
  rw [hp] at hb
  exact hb

/-- C2 witness: the amended invariants at the double-creation trace —
the busy count stays within the pool bound and the two dispatched tasks
are distinct. -/
theorem c2_amended_pool_invariants_witness :
    countOfBusyWorkers (execRun (initExec 2)
      [ExecLabel.execute true, ExecLabel.execute true, ExecLabel.online 0,
       ExecLabel.resume 0, ExecLabel.online 1, ExecLabel.resume 1]) ≤ 2
    ∧ ((execRun (initExec 2)
      [ExecLabel.execute true, ExecLabel.execute true, ExecLabel.online 0,
       ExecLabel.resume 0, ExecLabel.online 1, ExecLabel.resume 1]).tasks.map QTask.tid).Nodup
    ∧ (1 : Nat) ≠ 0 := by
  have h := c2_amended_pool_invariants 2
    [ExecLabel.execute true, ExecLabel.execute true, ExecLabel.online 0,
     ExecLabel.resume 0, ExecLabel.online 1, ExecLabel.resume 1]
  refine ⟨h.1, h.2.1, ?_⟩
  exact h.2.2 0 1
    { task := some { tid := 1, loadable := true }, threadWorkerId := 0, slotIndex := 0,
      running := true, timeoutFlag := false, timerArmed := false, phase := CtxPhase.loading }
    { task := some { tid := 0, loadable := true }, threadWorkerId := 1, slotIndex := 0,
      running := true, timeoutFlag := false, timerArmed := false, phase := CtxPhase.loading }
    { tid := 1, loadable := true } { tid := 0, loadable := true }
    (by decide) rfl rfl rfl rfl

end WasmServerless
